import Mathlib

/-!
# Vanadis decode unit and GPR-to-FP conversion micro-op

A shallow embedding of `decoder/vdecoder.h` (class `VanadisDecoder`) and of
`inst/vgpr2fp.h` (class template `VanadisGPR2FPInstruction`), followed by the
properties proved about them.

Machine integers are natural numbers; a `uintN_t` value is a natural number
below `2 ^ N` and every place where the C++ code narrows a value carries an
explicit `% 2 ^ N`.
-/

namespace Vanadis

/-! ## Instruction loader (collaborator of the decoder) -/

/-- Loader cache mode, the enum `VanadisInstructionLoaderMode`. -/
inductive VanadisInstructionLoaderMode where
  | LRU_CACHE_MODE
  | INFINITE_CACHE_MODE
  deriving DecidableEq, Repr

/-- Modelled from the spec: a Predecode Entry, `{line key, raw byte payload, validity flag}`
(the cache classes of `vinsloader.h` are not among the sources). -/
structure PredecodeEntry where
  lineKey : Nat
  payload : List Nat
  valid : Bool
  deriving DecidableEq, Repr

/-- Modelled from the spec: a Micro-op Cache Entry, `{instruction address, decoded
micro-ops, byte length consumed}`; micro-ops are kept as opaque codes. -/
structure MicroOpEntry where
  address : Nat
  microOps : List Nat
  byteLength : Nat
  deriving DecidableEq, Repr

/-- Modelled from the spec: an Outstanding Fetch Request, `{line key, request identifier}`. -/
structure OutstandingFetch where
  lineKey : Nat
  requestId : Nat
  deriving DecidableEq, Repr

/-- Modelled from the spec: an asynchronous fetch response `response(requestId, bytes)`. -/
structure FetchResponse where
  requestId : Nat
  bytes : List Nat
  deriving DecidableEq, Repr

/-- Modelled from the spec: the state of `VanadisInstructionLoader` (`vinsloader.h` is not
among the sources): the three sizes handed to its constructor, the cache mode, the two
caches (most recently used entry first) and the outstanding line-fetch requests. -/
structure VanadisInstructionLoader where
  uop_cache_size : Nat
  predecode_cache_entries : Nat
  cache_line_width : Nat
  mode : VanadisInstructionLoaderMode
  uop_cache : List MicroOpEntry
  predecode_cache : List PredecodeEntry
  outstanding : List OutstandingFetch
  deriving DecidableEq, Repr

/-- Power-of-two test used for the line width: some `2 ^ k` with `k ≤ n` equals `n`. -/
def isPowerOfTwo (n : Nat) : Bool := (List.range (n + 1)).any (fun k => 2 ^ k == n)

namespace VanadisInstructionLoader

/-- Modelled from the spec: the constructor `VanadisInstructionLoader(uop_cache_size,
predecode_cache_entries, cachelinewidth)`, missing from the sources. Section 7 of the
spec: a configuration that requests a non-power-of-two line width or zero capacity is
rejected at construction time; otherwise both caches start empty, nothing is
outstanding and the mode is bounded-LRU (the default of section 6). -/
def create (uop_cache_size predecode_cache_entries cachelinewidth : Nat) :
    Option VanadisInstructionLoader :=
  if isPowerOfTwo cachelinewidth = true ∧ uop_cache_size ≠ 0 ∧ predecode_cache_entries ≠ 0 then
    some { uop_cache_size := uop_cache_size
           predecode_cache_entries := predecode_cache_entries
           cache_line_width := cachelinewidth
           mode := VanadisInstructionLoaderMode.LRU_CACHE_MODE
           uop_cache := []
           predecode_cache := []
           outstanding := [] }
  else none

/-- Modelled from the spec: `setLoaderMode`, a plain assignment of the cache mode. -/
def setLoaderMode (m : VanadisInstructionLoaderMode) (l : VanadisInstructionLoader) :
    VanadisInstructionLoader :=
  { l with mode := m }

/-- Modelled from the spec: `setCacheLineWidth`, a plain assignment of the line width. -/
def setCacheLineWidth (w : Nat) (l : VanadisInstructionLoader) : VanadisInstructionLoader :=
  { l with cache_line_width := w }

/-- Modelled from the spec: insertion of a fetched line into the Predecode Cache. The
new entry becomes the most recently used one; in bounded-LRU mode the cache keeps at
most `predecode_cache_entries` lines and drops the least recently used, in unbounded
mode nothing is evicted. -/
def insertLine (e : PredecodeEntry) (l : VanadisInstructionLoader) : List PredecodeEntry :=
  let fresh := e :: l.predecode_cache.filter (fun x => x.lineKey != e.lineKey)
  match l.mode with
  | VanadisInstructionLoaderMode.LRU_CACHE_MODE => fresh.take l.predecode_cache_entries
  | VanadisInstructionLoaderMode.INFINITE_CACHE_MODE => fresh

/-- Modelled from the spec: `acceptResponse`. The response is matched against the
outstanding requests by request identifier; on a match the request is removed and the
line is put into the Predecode Cache (result `true`); an unmatched or stale response is
discarded without error (result `false`, loader unchanged). -/
def acceptResponse (resp : FetchResponse) (l : VanadisInstructionLoader) :
    Bool × VanadisInstructionLoader :=
  match l.outstanding.find? (fun r => r.requestId == resp.requestId) with
  | none => (false, l)
  | some r =>
    (true,
      { l with
        outstanding := l.outstanding.filter (fun q => q.requestId != resp.requestId)
        predecode_cache :=
          insertLine { lineKey := r.lineKey, payload := resp.bytes, valid := true } l })

/-- Modelled from the spec: the cache-hierarchy flush of in-flight fetch state. Every
outstanding request is removed, so that a late response no longer matches; entries
already resident in either cache stay. -/
def flushOutstanding (l : VanadisInstructionLoader) : VanadisInstructionLoader :=
  { l with outstanding := [] }

end VanadisInstructionLoader

/-! ## The decode unit, `VanadisDecoder` -/

/-- Configuration parameters read by the constructor (`Params`); an absent option is
`none`. -/
structure Params where
  icache_line_width : Option Nat
  uop_cache_entries : Option Nat
  predecode_cache_entries : Option Nat
  loader_mode : Option Nat
  deriving DecidableEq, Repr

/-- Lookup with default, `params.find<T>(key, default)`. -/
def Params.find (v : Option Nat) (dflt : Nat) : Nat := v.getD dflt

/-- Everything the constructor depends on: the parameters, the sub-components found
in the `branch_unit` and `os_handler` slots (`none` is the null pointer returned for an
empty slot) and the indeterminate initial contents of the two members the constructor
does not assign (`core`, `wantDelegatedLoad`). -/
structure ConstructEnv where
  params : Params
  branch_unit : Option Nat
  os_handler : Option Nat
  core_indeterminate : Nat
  wantDelegatedLoad_indeterminate : Bool
  deriving DecidableEq, Repr

/-- Data members of `VanadisDecoder`. Pointers to collaborators are opaque handles
(`none` is `nullptr`); the seven statistics are the values of their counters. -/
structure VanadisDecoder where
  ip : Nat
  icache_line_width : Nat
  hw_thr : Nat
  core : Nat
  tls_ptr : Nat
  wantDelegatedLoad : Bool
  thread_rob : Option Nat
  ins_loader : VanadisInstructionLoader
  branch_predictor : Option Nat
  os_handler : Option Nat
  fpflags : Option Nat
  canIssueStores : Bool
  canIssueLoads : Bool
  stat_uop_hit : Nat
  stat_uop_delayed_rob_full : Nat
  stat_predecode_hit : Nat
  stat_predecode_miss : Nat
  stat_decode_fault : Nat
  stat_uop_generated : Nat
  stat_ins_bytes_loaded : Nat
  deriving DecidableEq, Repr

namespace VanadisDecoder

/-- The `switch (loader_mode)` of the constructor. -/
def selectLoaderMode (loader_mode : Nat) : VanadisInstructionLoaderMode :=
  match loader_mode with
  | 0 => VanadisInstructionLoaderMode.LRU_CACHE_MODE
  | 1 => VanadisInstructionLoaderMode.INFINITE_CACHE_MODE
  | _ => VanadisInstructionLoaderMode.LRU_CACHE_MODE

/-- The constructor `VanadisDecoder(id, params)`. The constructor of the instruction
loader, which is not among the sources, is the first argument
(`VanadisInstructionLoader.create` is that constructor as the spec describes it). The
decoder's constructor fails (`none`) when the loader cannot be constructed or when
`os_handler->setThreadLocalStoragePointer` is reached with a null `os_handler`. -/
def construct (newLoader : Nat → Nat → Nat → Option VanadisInstructionLoader)
    (env : ConstructEnv) : Option VanadisDecoder :=
  let icache_line_width := Params.find env.params.icache_line_width 64
  let uop_cache_size := Params.find env.params.uop_cache_entries 128
  let predecode_cache_entries := Params.find env.params.predecode_cache_entries 4
  match newLoader uop_cache_size predecode_cache_entries icache_line_width with
  | none => none
  | some loader0 =>
    let loader_mode := Params.find env.params.loader_mode 0
    let ins_loader := loader0.setLoaderMode (selectLoaderMode loader_mode)
    match env.os_handler with
    | none => none
    | some os =>
      some { ip := 0
             tls_ptr := 0
             thread_rob := none
             fpflags := none
             icache_line_width := icache_line_width
             ins_loader := ins_loader
             branch_predictor := env.branch_unit
             os_handler := some os
             hw_thr := 0
             core := env.core_indeterminate
             wantDelegatedLoad := env.wantDelegatedLoad_indeterminate
             canIssueStores := true
             canIssueLoads := true
             stat_uop_hit := 0
             stat_predecode_hit := 0
             stat_predecode_miss := 0
             stat_uop_generated := 0
             stat_decode_fault := 0
             stat_ins_bytes_loaded := 0
             stat_uop_delayed_rob_full := 0 }

/-- Method `markLoadFencing`. -/
def markLoadFencing (s : VanadisDecoder) : VanadisDecoder := { s with canIssueLoads := false }

/-- Method `markStoreFencing`. -/
def markStoreFencing (s : VanadisDecoder) : VanadisDecoder := { s with canIssueStores := false }

/-- Method `clearLoadFencing`. -/
def clearLoadFencing (s : VanadisDecoder) : VanadisDecoder := { s with canIssueLoads := true }

/-- Method `clearStoreFencing`. -/
def clearStoreFencing (s : VanadisDecoder) : VanadisDecoder := { s with canIssueStores := true }

/-- Method `clearFencing`: `clearLoadFencing(); clearStoreFencing();`. -/
def clearFencing (s : VanadisDecoder) : VanadisDecoder := clearStoreFencing (clearLoadFencing s)

/-- Method `markFencing`: `markLoadFencing(); markStoreFencing();`. -/
def markFencing (s : VanadisDecoder) : VanadisDecoder := markStoreFencing (markLoadFencing s)

/-- Method `setInsCacheLineWidth`. -/
def setInsCacheLineWidth (ic_width : Nat) (s : VanadisDecoder) : VanadisDecoder :=
  { s with
    icache_line_width := ic_width
    ins_loader := s.ins_loader.setCacheLineWidth ic_width }

/-- Method `getInsCacheLineWidth`. -/
def getInsCacheLineWidth (s : VanadisDecoder) : Nat := s.icache_line_width

/-- Method `acceptCacheResponse`: forwards to the loader and returns its verdict. -/
def acceptCacheResponse (req : FetchResponse) (s : VanadisDecoder) : Bool × VanadisDecoder :=
  let r := s.ins_loader.acceptResponse req
  (r.1, { s with ins_loader := r.2 })

/-- Method `getInstructionPointer`. -/
def getInstructionPointer (s : VanadisDecoder) : Nat := s.ip

/-- Method `setInstructionPointer`. -/
def setInstructionPointer (newIP : Nat) (s : VanadisDecoder) : VanadisDecoder :=
  { s with ip := newIP }

/-- The base-class body of the virtual hook `clearDecoderAfterMisspeculate`, which is
empty. -/
def clearDecoderAfterMisspeculate (s : VanadisDecoder) : VanadisDecoder := s

/-- Method `setInstructionPointerAfterMisspeculate`; the virtual hook is the first
argument (`clearDecoderAfterMisspeculate` for a decoder that does not override it). -/
def setInstructionPointerAfterMisspeculate (hook : VanadisDecoder → VanadisDecoder)
    (newIP : Nat) (s : VanadisDecoder) : VanadisDecoder :=
  let s1 := { s with ip := newIP }
  hook s1

/-- Method `setThreadLocalStoragePointer`. -/
def setThreadLocalStoragePointer (new_tls : Nat) (s : VanadisDecoder) : VanadisDecoder :=
  { s with tls_ptr := new_tls }

/-- Method `getThreadLocalStoragePointer`. -/
def getThreadLocalStoragePointer (s : VanadisDecoder) : Nat := s.tls_ptr

/-- Method `setCore`. -/
def setCore (num : Nat) (s : VanadisDecoder) : VanadisDecoder := { s with core := num }

/-- Method `getCore`. -/
def getCore (s : VanadisDecoder) : Nat := s.core

/-- Method `setHardwareThread`. -/
def setHardwareThread (thr : Nat) (s : VanadisDecoder) : VanadisDecoder := { s with hw_thr := thr }

/-- Method `getHardwareThread`. -/
def getHardwareThread (s : VanadisDecoder) : Nat := s.hw_thr

/-- Modelled from the spec: a `clearDecoderAfterMisspeculate` override that performs the
cache-hierarchy flush of in-flight fetch state described for
`setInstructionPointerAfterMisspeculate` (no such override is among the sources). -/
def flushingHook (s : VanadisDecoder) : VanadisDecoder :=
  { s with ins_loader := s.ins_loader.flushOutstanding }

end VanadisDecoder

/-! ## Sequences of fence toggles -/

/-- The six fence toggles of the decode unit. -/
inductive FenceToggle where
  | markLoadFencing
  | markStoreFencing
  | clearLoadFencing
  | clearStoreFencing
  | clearFencing
  | markFencing
  deriving DecidableEq, Repr

/-- Run one toggle. -/
def FenceToggle.run : FenceToggle → VanadisDecoder → VanadisDecoder
  | .markLoadFencing, s => s.markLoadFencing
  | .markStoreFencing, s => s.markStoreFencing
  | .clearLoadFencing, s => s.clearLoadFencing
  | .clearStoreFencing, s => s.clearStoreFencing
  | .clearFencing, s => s.clearFencing
  | .markFencing, s => s.markFencing

/-- Run a finite sequence of toggles, first element first. -/
def runToggles (ts : List FenceToggle) (s : VanadisDecoder) : VanadisDecoder :=
  ts.foldl (fun acc t => t.run acc) s

/-- The load fence is set when loads may not issue. -/
def loadFence (s : VanadisDecoder) : Bool := !s.canIssueLoads

/-- The store fence is set when stores may not issue. -/
def storeFence (s : VanadisDecoder) : Bool := !s.canIssueStores

/-- The fence value a toggle writes to the load fence, when it addresses it. -/
def FenceToggle.loadWrite : FenceToggle → Option Bool
  | .markLoadFencing => some true
  | .clearLoadFencing => some false
  | .markFencing => some true
  | .clearFencing => some false
  | .markStoreFencing => none
  | .clearStoreFencing => none

/-- The fence value a toggle writes to the store fence, when it addresses it. -/
def FenceToggle.storeWrite : FenceToggle → Option Bool
  | .markStoreFencing => some true
  | .clearStoreFencing => some false
  | .markFencing => some true
  | .clearFencing => some false
  | .markLoadFencing => none
  | .clearLoadFencing => none

/-- The value written by the last element of the sequence that writes at all. -/
def lastWrite (w : FenceToggle → Option Bool) (ts : List FenceToggle) : Option Bool :=
  (ts.reverse.filterMap w).head?

/-! ## ISA options, register formats and the register file -/

/-- Floating-point register mode of an instruction set, the enum `VanadisFPRegisterMode`. -/
inductive VanadisFPRegisterMode where
  | VANADIS_REGISTER_MODE_FP32
  | VANADIS_REGISTER_MODE_FP64
  deriving DecidableEq, Repr

/-- Modelled from the spec: `VanadisDecoderOptions` (`decoder/visaopts.h` is not among the
sources), reduced to the two values the conversion micro-op reads: the floating-point
register mode and the index of the architecturally designated ignored-writes register. -/
structure VanadisDecoderOptions where
  fpRegisterMode : VanadisFPRegisterMode
  registerIgnoreWrites : Nat
  deriving DecidableEq, Repr

/-- Getter `getFPRegisterMode`. -/
def VanadisDecoderOptions.getFPRegisterMode (o : VanadisDecoderOptions) : VanadisFPRegisterMode :=
  o.fpRegisterMode

/-- Getter `getRegisterIgnoreWrites`. -/
def VanadisDecoderOptions.getRegisterIgnoreWrites (o : VanadisDecoderOptions) : Nat :=
  o.registerIgnoreWrites

/-- The types a conversion micro-op is instantiated with (template arguments
`gpr_format` and `fp_format`): the 4-byte and 8-byte arithmetic types. -/
inductive RegFormat where
  | int32_t
  | uint32_t
  | int64_t
  | uint64_t
  | float
  | double
  deriving DecidableEq, Repr

/-- The C++ `sizeof` of a format, in bytes. -/
def RegFormat.sizeof : RegFormat → Nat
  | .int32_t => 4
  | .uint32_t => 4
  | .float => 4
  | .int64_t => 8
  | .uint64_t => 8
  | .double => 8

/-- The ways in which executing a micro-op can stop instead of completing (assertions
are taken as enabled). -/
inductive Fault where
  /-- The `assert(0)` of `bitwise_convert`. -/
  | contractViolation
  /-- A register-file operation is used outside its contract. -/
  | registerFile
  /-- An operand array is indexed outside the slots the constructor allocated. -/
  | outOfBounds
  deriving DecidableEq, Repr

/-- Modelled from the spec: `VanadisRegisterFile` (its header is not among the sources). The
file stores integer and floating-point values; every floating-point register is
`fp_reg_width` bytes wide (4 or 8). Registers are held as bit patterns. -/
structure VanadisRegisterFile where
  fp_reg_width : Nat
  int_reg_storage : Nat → Nat
  fp_reg_storage : Nat → Nat

namespace VanadisRegisterFile

/-- Getter `getFPRegWidth`. -/
def getFPRegWidth (rf : VanadisRegisterFile) : Nat := rf.fp_reg_width

/-- Modelled from the spec: `getIntReg<T>(reg)`, the low `size` bytes of an integer
register. -/
def getIntReg (rf : VanadisRegisterFile) (size reg : Nat) : Nat :=
  rf.int_reg_storage reg % 2 ^ (8 * size)

/-- Modelled from the spec: `getFPReg<T>(reg)`, a floating-point register read back at a
width of `size` bytes. -/
def getFPReg (rf : VanadisRegisterFile) (size reg : Nat) : Nat :=
  rf.fp_reg_storage reg % 2 ^ (8 * size)

/-- Modelled from the spec: `setFPReg<T>(reg, val)`, a store of the `size`-byte value `val`
into one floating-point register. A value wider than the register cannot be stored. (A
value narrower than the register would leave zero above it; with 4- and 8-byte formats
and registers the conversion micro-op never makes such a store.) -/
def setFPReg (rf : VanadisRegisterFile) (size reg val : Nat) : Except Fault VanadisRegisterFile :=
  if size ≤ rf.fp_reg_width then
    .ok { rf with fp_reg_storage := fun r => if r = reg then val % 2 ^ (8 * size)
                                             else rf.fp_reg_storage r }
  else .error Fault.registerFile

end VanadisRegisterFile

/-- Modelled from the spec: `fractureToRegisters` (`inst/vfpinst.h` is not among the
sources). A 64-bit value is split across two physical registers, low half into the
first and high half into the second; fracture attempted on a file that is not in FP32
mode (registers not 4 bytes wide) fails fast. -/
def fractureToRegisters (rf : VanadisRegisterFile) (reg_lo reg_hi value : Nat) :
    Except Fault VanadisRegisterFile :=
  if rf.getFPRegWidth = 4 then do
    let rf1 ← rf.setFPReg 4 reg_lo (value % 2 ^ 32)
    rf1.setFPReg 4 reg_hi (value / 2 ^ 32 % 2 ^ 32)
  else .error Fault.registerFile

/-- Modelled from the spec: the inverse merge operation (`combineFromRegisters`), which
reconstructs a 64-bit value from a fractured pair. -/
def combineFromRegisters (rf : VanadisRegisterFile) (reg_lo reg_hi : Nat) : Nat :=
  rf.getFPReg 4 reg_lo + 2 ^ 32 * rf.getFPReg 4 reg_hi

/-- Floating-point primitives that the embedding leaves uninterpreted: the value
conversion `static_cast<fp_format>(v)` from a source of type `gpr_format`, as a map
from bit pattern to bit pattern, and `convertTo<uint64_t>` applied to a value of type
`fp_format`. -/
structure FPPrimitives where
  static_cast : RegFormat → RegFormat → Nat → Nat
  convertTo_uint64 : RegFormat → Nat → Nat

/-! ## The conversion micro-op, `VanadisGPR2FPInstruction` -/

/-- Read `xs[i]`; an index outside the array is a fault. -/
def readSlot (xs : List Nat) (i : Nat) : Except Fault Nat :=
  match xs[i]? with
  | some x => .ok x
  | none => .error Fault.outOfBounds

/-- Assign `xs[i] = v`; an index outside the array is a fault. -/
def writeSlot (xs : List Nat) (i v : Nat) : Except Fault (List Nat) :=
  if i < xs.length then .ok (xs.set i v) else .error Fault.outOfBounds

/-- Data members of a `VanadisGPR2FPInstruction<gpr_format, fp_format, is_bitwise>`: the
three template arguments, the members inherited from the instruction base classes that
the micro-op uses, and `flag_checks`, the results on which floating-point flag
evaluation has been performed so far (oldest first). -/
structure VanadisGPR2FPInstruction where
  gpr_format : RegFormat
  fp_format : RegFormat
  is_bitwise : Bool
  ins_address : Nat
  hw_thread : Nat
  isa_options : VanadisDecoderOptions
  fpflags : Option Nat
  count_phys_int_reg_in : Nat
  count_phys_int_reg_out : Nat
  count_isa_int_reg_in : Nat
  count_isa_int_reg_out : Nat
  count_phys_fp_reg_in : Nat
  count_phys_fp_reg_out : Nat
  count_isa_fp_reg_in : Nat
  count_isa_fp_reg_out : Nat
  phys_int_regs_in : List Nat
  phys_int_regs_out : List Nat
  isa_int_regs_in : List Nat
  isa_int_regs_out : List Nat
  phys_fp_regs_in : List Nat
  phys_fp_regs_out : List Nat
  isa_fp_regs_in : List Nat
  isa_fp_regs_out : List Nat
  hasExecuted : Bool
  flag_checks : List Nat
  deriving DecidableEq, Repr

/-- Modelled from the spec: the base-class constructor `VanadisFloatingPointInstruction(addr,
hw_thr, isa_opts, fpflags, counts...)` (`inst/vfpinst.h` and `inst/vinst.h` are not among
the sources). It records the eight operand counts (physical and ISA, integer and
floating-point, in and out) and allocates one operand array of that many slots for
each; the instruction has not executed. -/
def VanadisFloatingPointInstruction.init (gpr_format fp_format : RegFormat) (is_bitwise : Bool)
    (addr hw_thr : Nat) (isa_opts : VanadisDecoderOptions) (fpflags : Option Nat)
    (c_phys_int_reg_in c_phys_int_reg_out c_isa_int_reg_in c_isa_int_reg_out
      c_phys_fp_reg_in c_phys_fp_reg_out c_isa_fp_reg_in c_isa_fp_reg_out : Nat) :
    VanadisGPR2FPInstruction :=
  { gpr_format := gpr_format
    fp_format := fp_format
    is_bitwise := is_bitwise
    ins_address := addr
    hw_thread := hw_thr
    isa_options := isa_opts
    fpflags := fpflags
    count_phys_int_reg_in := c_phys_int_reg_in
    count_phys_int_reg_out := c_phys_int_reg_out
    count_isa_int_reg_in := c_isa_int_reg_in
    count_isa_int_reg_out := c_isa_int_reg_out
    count_phys_fp_reg_in := c_phys_fp_reg_in
    count_phys_fp_reg_out := c_phys_fp_reg_out
    count_isa_fp_reg_in := c_isa_fp_reg_in
    count_isa_fp_reg_out := c_isa_fp_reg_out
    phys_int_regs_in := List.replicate c_phys_int_reg_in 0
    phys_int_regs_out := List.replicate c_phys_int_reg_out 0
    isa_int_regs_in := List.replicate c_isa_int_reg_in 0
    isa_int_regs_out := List.replicate c_isa_int_reg_out 0
    phys_fp_regs_in := List.replicate c_phys_fp_reg_in 0
    phys_fp_regs_out := List.replicate c_phys_fp_reg_out 0
    isa_fp_regs_in := List.replicate c_isa_fp_reg_in 0
    isa_fp_regs_out := List.replicate c_isa_fp_reg_out 0
    hasExecuted := false
    flag_checks := [] }

namespace VanadisGPR2FPInstruction

/-- The constructor `VanadisGPR2FPInstruction(addr, hw_thr, isa_opts, fpflags, fp_dest,
int_src)`; `fp_dest` and `int_src` are `uint16_t`. -/
def construct (gpr_format fp_format : RegFormat) (is_bitwise : Bool) (addr hw_thr : Nat)
    (isa_opts : VanadisDecoderOptions) (fpflags : Option Nat) (fp_dest int_src : Nat) :
    Except Fault VanadisGPR2FPInstruction := do
  let base := VanadisFloatingPointInstruction.init gpr_format fp_format is_bitwise addr hw_thr
    isa_opts fpflags 1 0 1 0 0
    (if fp_format.sizeof = 8 ∧
        VanadisFPRegisterMode.VANADIS_REGISTER_MODE_FP32 = isa_opts.getFPRegisterMode
      then 2 else 1)
    0
    (if fp_format.sizeof = 8 ∧
        VanadisFPRegisterMode.VANADIS_REGISTER_MODE_FP32 = isa_opts.getFPRegisterMode
      then 2 else 1)
  let int_in ← writeSlot base.isa_int_regs_in 0 int_src
  if fp_format.sizeof = 8 ∧
      VanadisFPRegisterMode.VANADIS_REGISTER_MODE_FP32 = isa_opts.getFPRegisterMode then do
    let out0 ← writeSlot base.isa_fp_regs_out 0 fp_dest
    let out1 ← writeSlot out0 1 ((fp_dest + 1) % 2 ^ 16)
    pure { base with isa_int_regs_in := int_in, isa_fp_regs_out := out1 }
  else do
    let out0 ← writeSlot base.isa_fp_regs_out 0 fp_dest
    pure { base with isa_int_regs_in := int_in, isa_fp_regs_out := out0 }

/-- The register-renaming step of the pipeline, outside this class: it fills the
physical operand slots the constructor allocated, and only those. -/
def assignPhysicalRegisters (phys_in phys_out : List Nat) (ins : VanadisGPR2FPInstruction) :
    Option VanadisGPR2FPInstruction :=
  if phys_in.length = ins.count_phys_int_reg_in ∧ phys_out.length = ins.count_phys_fp_reg_out then
    some { ins with phys_int_regs_in := phys_in, phys_fp_regs_out := phys_out }
  else none

/-- Modelled from the spec: `markExecuted` of the instruction base class (`inst/vinst.h` is
not among the sources); it records that the micro-op has executed. -/
def markExecuted (ins : VanadisGPR2FPInstruction) : VanadisGPR2FPInstruction :=
  { ins with hasExecuted := true }

/-- Modelled from the spec: `performFlagChecks<fp_format>(result)` (`inst/vfpinst.h` is not
among the sources), floating-point flag evaluation on a result. The evaluation itself
is floating-point classification and is not interpreted; the model records on which
result it was performed. -/
def performFlagChecks (result : Nat) (ins : VanadisGPR2FPInstruction) : VanadisGPR2FPInstruction :=
  { ins with flag_checks := ins.flag_checks ++ [result] }

/-- Method `bitwise_convert`. -/
def bitwise_convert (ins : VanadisGPR2FPInstruction) (regFile : VanadisRegisterFile) :
    Except Fault VanadisRegisterFile := do
  let src ← readSlot ins.phys_int_regs_in 0
  let v := regFile.getIntReg ins.gpr_format.sizeof src
  let result ←
    (if ins.fp_format = RegFormat.uint64_t ∧ ins.gpr_format = RegFormat.uint64_t then
      (.ok v : Except Fault Nat)
    else if ins.fp_format = RegFormat.uint32_t ∧ ins.gpr_format = RegFormat.uint32_t then
      (if 8 = regFile.getFPRegWidth then .ok (0xffffffff00000000 ||| v) else .ok v)
    else .error Fault.contractViolation)
  if ins.fp_format.sizeof = 8 ∧
      VanadisFPRegisterMode.VANADIS_REGISTER_MODE_FP32 = ins.isa_options.getFPRegisterMode then do
    let out0 ← readSlot ins.phys_fp_regs_out 0
    let out1 ← readSlot ins.phys_fp_regs_out 1
    fractureToRegisters regFile out0 out1 result
  else do
    let out0 ← readSlot ins.phys_fp_regs_out 0
    if 8 = regFile.getFPRegWidth then regFile.setFPReg 8 out0 result
    else regFile.setFPReg 4 out0 (result % 2 ^ 32)

/-- Method `convert`. The result of the value conversion is kept as the bit pattern of
an `fp_format` value. -/
def convert (P : FPPrimitives) (ins : VanadisGPR2FPInstruction) (regFile : VanadisRegisterFile) :
    Except Fault (VanadisRegisterFile × VanadisGPR2FPInstruction) := do
  let src ← readSlot ins.phys_int_regs_in 0
  let v := regFile.getIntReg ins.gpr_format.sizeof src
  let result := P.static_cast ins.gpr_format ins.fp_format v % 2 ^ (8 * ins.fp_format.sizeof)
  let regFile1 ←
    (if ins.fp_format.sizeof = 8 ∧
        VanadisFPRegisterMode.VANADIS_REGISTER_MODE_FP32 = ins.isa_options.getFPRegisterMode then do
      let out0 ← readSlot ins.phys_fp_regs_out 0
      let out1 ← readSlot ins.phys_fp_regs_out 1
      fractureToRegisters regFile out0 out1 result
    else do
      let out0 ← readSlot ins.phys_fp_regs_out 0
      if 8 = regFile.getFPRegWidth ∧ 4 = ins.fp_format.sizeof then
        let tmp := 0xffffffff00000000 ||| (P.convertTo_uint64 ins.fp_format result % 2 ^ 64)
        regFile.setFPReg 8 out0 tmp
      else regFile.setFPReg ins.fp_format.sizeof out0 result)
  let isa_src ← readSlot ins.isa_int_regs_in 0
  if isa_src ≠ ins.isa_options.getRegisterIgnoreWrites then
    pure (regFile1, ins.performFlagChecks result)
  else pure (regFile1, ins)

/-- Method `execute`: the conversion selected by `is_bitwise`, then `markExecuted`. -/
def execute (P : FPPrimitives) (ins : VanadisGPR2FPInstruction) (regFile : VanadisRegisterFile) :
    Except Fault (VanadisRegisterFile × VanadisGPR2FPInstruction) := do
  let st ←
    (if ins.is_bitwise = true then do
      let regFile1 ← bitwise_convert ins regFile
      pure (regFile1, ins)
    else convert P ins regFile)
  pure (st.1, st.2.markExecuted)

/-- A conversion micro-op as the pipeline hands it to `execute`: constructed, then given
its physical registers. -/
def issue (gpr_format fp_format : RegFormat) (is_bitwise : Bool) (addr hw_thr : Nat)
    (isa_opts : VanadisDecoderOptions) (fpflags : Option Nat) (fp_dest int_src : Nat)
    (phys_in phys_out : List Nat) : Option VanadisGPR2FPInstruction :=
  match construct gpr_format fp_format is_bitwise addr hw_thr isa_opts fpflags fp_dest int_src with
  | .ok ins => assignPhysicalRegisters phys_in phys_out ins
  | .error _ => none

end VanadisGPR2FPInstruction

/-- The condition, written three times in the constructor and once in each conversion
method, under which a result is fractured: `fp_format` is 8 bytes wide and the ISA
options report FP32 register mode. -/
def Fractures (fp_format : RegFormat) (isa_opts : VanadisDecoderOptions) : Prop :=
  fp_format.sizeof = 8 ∧
    VanadisFPRegisterMode.VANADIS_REGISTER_MODE_FP32 = isa_opts.getFPRegisterMode

/-- The fracture condition is decidable. -/
instance instDecidableFractures (fp_format : RegFormat) (isa_opts : VanadisDecoderOptions) :
    Decidable (Fractures fp_format isa_opts) := by
  unfold Fractures
  infer_instance

/-- Modelled from the spec: the register file of a hardware thread whose instruction set
has the given options. The floating-point file is configured as 32-bit-only, with
4-byte registers, exactly when the options report FP32 register mode; otherwise its
registers are 8 bytes wide. -/
def agreesWith (rf : VanadisRegisterFile) (isa_opts : VanadisDecoderOptions) : Prop :=
  rf.fp_reg_width =
    (if VanadisFPRegisterMode.VANADIS_REGISTER_MODE_FP32 = isa_opts.getFPRegisterMode then 4
     else 8)

/-- Agreement of register file and ISA options is decidable. -/
instance instDecidableAgreesWith (rf : VanadisRegisterFile) (isa_opts : VanadisDecoderOptions) :
    Decidable (agreesWith rf isa_opts) := by
  unfold agreesWith
  infer_instance

/-- The content of floating-point register `reg` after a run, when the run completed. -/
def storedValue (r : Except Fault (VanadisRegisterFile × VanadisGPR2FPInstruction)) (reg : Nat) :
    Option Nat :=
  match r with
  | .ok st => some (st.1.fp_reg_storage reg)
  | .error _ => none

/-- Execute an issued micro-op; a micro-op that could not be issued has no operand
slots to read. -/
def executeIssued (P : FPPrimitives) (ins : Option VanadisGPR2FPInstruction)
    (regFile : VanadisRegisterFile) :
    Except Fault (VanadisRegisterFile × VanadisGPR2FPInstruction) :=
  match ins with
  | some i => VanadisGPR2FPInstruction.execute P i regFile
  | none => .error Fault.outOfBounds

/-- Run `bitwise_convert` on an issued micro-op. -/
def bitwiseConvertIssued (ins : Option VanadisGPR2FPInstruction) (regFile : VanadisRegisterFile) :
    Except Fault VanadisRegisterFile :=
  match ins with
  | some i => VanadisGPR2FPInstruction.bitwise_convert i regFile
  | none => .error Fault.outOfBounds

/-- The results on which flag evaluation has been performed after a run, when the run
completed. -/
def flagChecksAfter (r : Except Fault (VanadisRegisterFile × VanadisGPR2FPInstruction)) :
    Option (List Nat) :=
  match r with
  | .ok st => some st.2.flag_checks
  | .error _ => none

/-- The fault a run stopped with, when it did not complete. -/
def faultOf {α : Type} (r : Except Fault α) : Option Fault :=
  match r with
  | .ok _ => none
  | .error e => some e

/-! ## Sample configurations and states -/

/-- A configuration in which every option is absent and both sub-component slots are
filled. -/
def sampleEnv : ConstructEnv :=
  { params := { icache_line_width := none, uop_cache_entries := none,
                predecode_cache_entries := none, loader_mode := none }
    branch_unit := some 1
    os_handler := some 2
    core_indeterminate := 0
    wantDelegatedLoad_indeterminate := false }

/-- The decoder constructed from `sampleEnv` with the loader constructor of the spec. -/
def sampleDecoder : VanadisDecoder :=
  { ip := 0
    icache_line_width := 64
    hw_thr := 0
    core := 0
    tls_ptr := 0
    wantDelegatedLoad := false
    thread_rob := none
    ins_loader :=
      { uop_cache_size := 128
        predecode_cache_entries := 4
        cache_line_width := 64
        mode := VanadisInstructionLoaderMode.LRU_CACHE_MODE
        uop_cache := []
        predecode_cache := []
        outstanding := [] }
    branch_predictor := some 1
    os_handler := some 2
    fpflags := none
    canIssueStores := true
    canIssueLoads := true
    stat_uop_hit := 0
    stat_uop_delayed_rob_full := 0
    stat_predecode_hit := 0
    stat_predecode_miss := 0
    stat_decode_fault := 0
    stat_uop_generated := 0
    stat_ins_bytes_loaded := 0 }

/-- The sample decoder with one line fetch outstanding: line `0x1000`, request 7. -/
def pendingDecoder : VanadisDecoder :=
  { sampleDecoder with
    ins_loader :=
      { sampleDecoder.ins_loader with outstanding := [{ lineKey := 0x1000, requestId := 7 }] } }

/-- The response to request 7. -/
def sampleResponse : FetchResponse := { requestId := 7, bytes := [0x13, 0x00, 0x00, 0x00] }

/-- ISA options in FP64 register mode whose ignored-writes register is register 0. -/
def optionsFP64 : VanadisDecoderOptions :=
  { fpRegisterMode := VanadisFPRegisterMode.VANADIS_REGISTER_MODE_FP64, registerIgnoreWrites := 0 }

/-- ISA options in FP32 register mode whose ignored-writes register is register 0. -/
def optionsFP32 : VanadisDecoderOptions :=
  { fpRegisterMode := VanadisFPRegisterMode.VANADIS_REGISTER_MODE_FP32, registerIgnoreWrites := 0 }

/-- A register file with 4-byte floating-point registers; every integer register holds
`0x1234` and every floating-point register holds 7. -/
def narrowFile : VanadisRegisterFile :=
  { fp_reg_width := 4, int_reg_storage := fun _ => 0x1234, fp_reg_storage := fun _ => 7 }

/-- A register file with 8-byte floating-point registers; every integer register holds
`0x1234` and every floating-point register holds 7. -/
def wideFile : VanadisRegisterFile :=
  { fp_reg_width := 8, int_reg_storage := fun _ => 0x1234, fp_reg_storage := fun _ => 7 }

/-- A stand-in for the uninterpreted floating-point primitives. -/
def samplePrimitives : FPPrimitives :=
  { static_cast := fun _ _ v => v + 1, convertTo_uint64 := fun _ v => v }

end Vanadis

/-! # Properties -/

namespace Vanadis

open VanadisDecoder

/-! ## Instruction pointer and fences -/

/-- C1: for every address `a` and every decoder state, `setInstructionPointer(a)` is an
unconditional write: afterwards `getInstructionPointer()` is `a` and both fence flags,
the TLS pointer, the core id, the hardware-thread id, the line width, the ROB reference
and the loader are unchanged. `setInstructionPointerAfterMisspeculate(a)` writes the
same `ip` and then runs the flush hook once, on the state that already holds `a` (a hook
that counts its calls counts one, a hook that reads `ip` reads `a`); with the
base-class hook the result is the state after `setInstructionPointer(a)`, the loader is
untouched and so every resident cache entry stays. -/
theorem setInstructionPointer_unconditional (s : VanadisDecoder) (a : Nat) :
    (s.setInstructionPointer a).getInstructionPointer = a ∧
    (s.setInstructionPointer a).canIssueLoads = s.canIssueLoads ∧
    (s.setInstructionPointer a).canIssueStores = s.canIssueStores ∧
    (s.setInstructionPointer a).getThreadLocalStoragePointer = s.getThreadLocalStoragePointer ∧
    (s.setInstructionPointer a).getCore = s.getCore ∧
    (s.setInstructionPointer a).getHardwareThread = s.getHardwareThread ∧
    (s.setInstructionPointer a).getInsCacheLineWidth = s.getInsCacheLineWidth ∧
    (s.setInstructionPointer a).thread_rob = s.thread_rob ∧
    (s.setInstructionPointer a).ins_loader = s.ins_loader ∧
    (∀ hook : VanadisDecoder → VanadisDecoder,
      s.setInstructionPointerAfterMisspeculate hook a = hook (s.setInstructionPointer a)) ∧
    s.setInstructionPointerAfterMisspeculate clearDecoderAfterMisspeculate a
      = s.setInstructionPointer a ∧
    (s.setInstructionPointerAfterMisspeculate clearDecoderAfterMisspeculate a).ins_loader
      = s.ins_loader ∧
    (s.setInstructionPointerAfterMisspeculate clearDecoderAfterMisspeculate a).ins_loader.predecode_cache
      = s.ins_loader.predecode_cache ∧
    (s.setInstructionPointerAfterMisspeculate clearDecoderAfterMisspeculate a).ins_loader.uop_cache
      = s.ins_loader.uop_cache ∧
    (s.setInstructionPointerAfterMisspeculate (fun t => t.setCore (t.getCore + 1)) a).getCore
      = s.getCore + 1 ∧
    (s.setInstructionPointerAfterMisspeculate
        (fun t => t.setThreadLocalStoragePointer t.getInstructionPointer)
        a).getThreadLocalStoragePointer = a := by
  refine ⟨rfl, rfl, rfl, rfl, rfl, rfl, rfl, rfl, rfl, fun _ => rfl, rfl, rfl, rfl, rfl, rfl,
    rfl⟩

/-- The value a run of toggles leaves in a flag is the last value written to it. -/
theorem lastWrite_append_singleton (w : FenceToggle → Option Bool) (ts : List FenceToggle)
    (t : FenceToggle) (b : Bool) :
    (lastWrite w (ts ++ [t])).getD b = ((w t).getD ((lastWrite w ts).getD b)) := by
  unfold lastWrite
  rw [List.reverse_append]
  cases hw : w t <;> simp [List.filterMap_cons, hw]

/-- Running a sequence extended by one toggle runs the toggle last. -/
theorem runToggles_append_singleton (ts : List FenceToggle) (t : FenceToggle)
    (s : VanadisDecoder) : runToggles (ts ++ [t]) s = t.run (runToggles ts s) := by
  simp [runToggles, List.foldl_append]

/-- One toggle writes each fence it addresses and leaves the other fence and `ip`. -/
theorem run_effect (t : FenceToggle) (s : VanadisDecoder) :
    loadFence (t.run s) = (t.loadWrite).getD (loadFence s) ∧
    storeFence (t.run s) = (t.storeWrite).getD (storeFence s) ∧
    (t.run s).ip = s.ip := by
  cases t <;> refine ⟨?_, ?_, ?_⟩ <;> rfl

/-- A run of toggles leaves in each fence the last value written to it, and keeps `ip`. -/
theorem runToggles_effect (ts : List FenceToggle) (s : VanadisDecoder) :
    loadFence (runToggles ts s) = (lastWrite FenceToggle.loadWrite ts).getD (loadFence s) ∧
    storeFence (runToggles ts s) = (lastWrite FenceToggle.storeWrite ts).getD (storeFence s) ∧
    (runToggles ts s).ip = s.ip := by
  induction ts using List.reverseRecOn with
  | nil => exact ⟨rfl, rfl, rfl⟩
  | append_singleton ts t ih =>
    obtain ⟨hl, hs, hip⟩ := ih
    obtain ⟨el, es, eip⟩ := run_effect t (runToggles ts s)
    rw [runToggles_append_singleton, lastWrite_append_singleton, lastWrite_append_singleton]
    exact ⟨by rw [el, hl], by rw [es, hs], by rw [eip, hip]⟩

/-! ## Construction of the decode unit -/

/-- The power-of-two test decides being a power of two. -/
theorem isPowerOfTwo_iff (n : Nat) : isPowerOfTwo n = true ↔ ∃ k, n = 2 ^ k := by
  unfold isPowerOfTwo
  simp only [List.any_eq_true, List.mem_range, beq_iff_eq]
  constructor
  · rintro ⟨k, _, hk⟩
    exact ⟨k, hk.symm⟩
  · rintro ⟨k, hk⟩
    refine ⟨k, ?_, hk.symm⟩
    have : k < 2 ^ k := Nat.lt_two_pow k
    omega

/-- The decoder's constructor, case by case: it fails where the loader's constructor
fails or the OS handler is missing, and otherwise yields the decoder written out
here. -/
theorem construct_eq (newLoader : Nat → Nat → Nat → Option VanadisInstructionLoader)
    (env : ConstructEnv) :
    VanadisDecoder.construct newLoader env =
      match newLoader (Params.find env.params.uop_cache_entries 128)
          (Params.find env.params.predecode_cache_entries 4)
          (Params.find env.params.icache_line_width 64) with
      | none => none
      | some loader0 =>
        match env.os_handler with
        | none => none
        | some os =>
          some { ip := 0
                 tls_ptr := 0
                 thread_rob := none
                 fpflags := none
                 icache_line_width := Params.find env.params.icache_line_width 64
                 ins_loader :=
                   loader0.setLoaderMode (selectLoaderMode (Params.find env.params.loader_mode 0))
                 branch_predictor := env.branch_unit
                 os_handler := some os
                 hw_thr := 0
                 core := env.core_indeterminate
                 wantDelegatedLoad := env.wantDelegatedLoad_indeterminate
                 canIssueStores := true
                 canIssueLoads := true
                 stat_uop_hit := 0
                 stat_predecode_hit := 0
                 stat_predecode_miss := 0
                 stat_uop_generated := 0
                 stat_decode_fault := 0
                 stat_ins_bytes_loaded := 0
                 stat_uop_delayed_rob_full := 0 } := by
  rfl

/-- What a successful construction fixes: the loader came from the loader's
constructor applied to the three configured sizes, and the decoder holds the configured
line width, cleared fences and a zero instruction pointer. -/
theorem construct_some {newLoader : Nat → Nat → Nat → Option VanadisInstructionLoader}
    {env : ConstructEnv} {d : VanadisDecoder}
    (h : VanadisDecoder.construct newLoader env = some d) :
    ∃ loader0,
      newLoader (Params.find env.params.uop_cache_entries 128)
        (Params.find env.params.predecode_cache_entries 4)
        (Params.find env.params.icache_line_width 64) = some loader0 ∧
      env.os_handler.isSome = true ∧
      d.ins_loader
        = loader0.setLoaderMode (selectLoaderMode (Params.find env.params.loader_mode 0)) ∧
      d.icache_line_width = Params.find env.params.icache_line_width 64 ∧
      d.canIssueLoads = true ∧ d.canIssueStores = true ∧ d.ip = 0 := by
  rw [construct_eq] at h
  cases hl : newLoader (Params.find env.params.uop_cache_entries 128)
      (Params.find env.params.predecode_cache_entries 4)
      (Params.find env.params.icache_line_width 64) with
  | none => rw [hl] at h; exact absurd h (by simp)
  | some loader0 =>
    rw [hl] at h
    cases hos : env.os_handler with
    | none => rw [hos] at h; exact absurd h (by simp)
    | some os =>
      rw [hos] at h
      simp only [Option.some.injEq] at h
      subst h
      exact ⟨loader0, rfl, rfl, rfl, rfl, rfl, rfl, rfl⟩

/-- The loader's constructor as the spec describes it rejects exactly a line width that
is not a power of two or a zero capacity. -/
theorem create_eq_none_iff (uop pre width : Nat) :
    VanadisInstructionLoader.create uop pre width = none ↔
      (isPowerOfTwo width = false ∨ uop = 0 ∨ pre = 0) := by
  unfold VanadisInstructionLoader.create
  by_cases h : isPowerOfTwo width = true ∧ uop ≠ 0 ∧ pre ≠ 0
  · rw [if_pos h]
    constructor
    · intro hc
      exact absurd hc (by simp)
    · rintro (hc | hc | hc)
      · rw [h.1] at hc
        exact absurd hc (by simp)
      · exact absurd hc h.2.1
      · exact absurd hc h.2.2
  · rw [if_neg h]
    refine ⟨fun _ => ?_, fun _ => rfl⟩
    by_cases h1 : isPowerOfTwo width = true
    · by_cases h2 : uop = 0
      · exact Or.inr (Or.inl h2)
      · by_cases h3 : pre = 0
        · exact Or.inr (Or.inr h3)
        · exact absurd ⟨h1, h2, h3⟩ h
    · exact Or.inl (by simpa using h1)

/-- C2: the load fence and the store fence are two independent booleans. A freshly
constructed decoder has neither fence set. For every decoder state each of the six
toggles writes exactly the fence or fences it names and leaves the other one, and no
toggle changes the instruction pointer; after any finite sequence of toggles each
fence holds the value written by the last toggle of the sequence that addresses it, or
its previous value when none does. -/
theorem fences_independent
    (newLoader : Nat → Nat → Nat → Option VanadisInstructionLoader) (env : ConstructEnv)
    (d : VanadisDecoder) (hnew : VanadisDecoder.construct newLoader env = some d) :
    (d.canIssueLoads = true ∧ d.canIssueStores = true ∧
      loadFence d = false ∧ storeFence d = false) ∧
    (∀ s : VanadisDecoder,
      (loadFence s.markLoadFencing = true ∧ storeFence s.markLoadFencing = storeFence s) ∧
      (loadFence s.clearLoadFencing = false ∧ storeFence s.clearLoadFencing = storeFence s) ∧
      (storeFence s.markStoreFencing = true ∧ loadFence s.markStoreFencing = loadFence s) ∧
      (storeFence s.clearStoreFencing = false ∧ loadFence s.clearStoreFencing = loadFence s) ∧
      (loadFence s.markFencing = true ∧ storeFence s.markFencing = true) ∧
      (loadFence s.clearFencing = false ∧ storeFence s.clearFencing = false) ∧
      (∀ t : FenceToggle, (t.run s).getInstructionPointer = s.getInstructionPointer)) ∧
    (∀ (ts : List FenceToggle) (s : VanadisDecoder),
      loadFence (runToggles ts s) = (lastWrite FenceToggle.loadWrite ts).getD (loadFence s) ∧
      storeFence (runToggles ts s) = (lastWrite FenceToggle.storeWrite ts).getD (storeFence s) ∧
      (runToggles ts s).getInstructionPointer = s.getInstructionPointer) ∧
    (∀ ts : List FenceToggle,
      loadFence (runToggles ts d) = (lastWrite FenceToggle.loadWrite ts).getD false ∧
      storeFence (runToggles ts d) = (lastWrite FenceToggle.storeWrite ts).getD false) := by
  obtain ⟨_, _, _, _, _, hcl, hcs, _⟩ := construct_some hnew
  have hl : loadFence d = false := by simp [loadFence, hcl]
  have hs : storeFence d = false := by simp [storeFence, hcs]
  refine ⟨⟨hcl, hcs, hl, hs⟩, ?_, ?_, ?_⟩
  · intro s
    refine ⟨⟨rfl, rfl⟩, ⟨rfl, rfl⟩, ⟨rfl, rfl⟩, ⟨rfl, rfl⟩, ⟨rfl, rfl⟩, ⟨rfl, rfl⟩, ?_⟩
    intro t
    exact (run_effect t s).2.2
  · intro ts s
    exact runToggles_effect ts s
  · intro ts
    have h := runToggles_effect ts d
    rw [hl, hs] at h
    exact ⟨h.1, h.2.1⟩

/-- Witness for C2: the decoder constructed from the default configuration. -/
theorem fences_independent_witness :
    VanadisDecoder.construct VanadisInstructionLoader.create sampleEnv = some sampleDecoder ∧
    sampleDecoder.canIssueLoads = true ∧ sampleDecoder.canIssueStores = true ∧
    loadFence (runToggles [FenceToggle.markFencing, FenceToggle.clearLoadFencing] sampleDecoder)
      = false ∧
    storeFence (runToggles [FenceToggle.markFencing, FenceToggle.clearLoadFencing] sampleDecoder)
      = true := by
  have h := fences_independent VanadisInstructionLoader.create sampleEnv sampleDecoder
    (by decide)
  refine ⟨by decide, h.1.1, h.1.2.1, ?_, ?_⟩
  · rw [(h.2.2.2 _).1]; rfl
  · rw [(h.2.2.2 _).2]; rfl

/-! ## Line width and cache configuration -/

/-- C9 (amended): `VanadisDecoder` applies no check of its own to the line width or to
the capacities. Its constructor fails exactly where the constructor of the instruction
loader fails or the OS handler is missing, and a constructed decoder holds the
configured line width. With the loader's constructor as the spec describes it, a line
width that is not a power of two, or a zero micro-op-cache or predecode-cache capacity,
is therefore rejected at construction time and a constructed decoder holds a
power-of-two line width. `setInsCacheLineWidth(w)` stores `w` unconditionally in the
decoder and hands it to the loader, whatever `w` is. -/
theorem lineWidth_checked_only_at_construction :
    (∀ (newLoader : Nat → Nat → Nat → Option VanadisInstructionLoader) (env : ConstructEnv),
      (VanadisDecoder.construct newLoader env = none ↔
        (newLoader (Params.find env.params.uop_cache_entries 128)
            (Params.find env.params.predecode_cache_entries 4)
            (Params.find env.params.icache_line_width 64) = none ∨
          env.os_handler = none)) ∧
      (∀ d, VanadisDecoder.construct newLoader env = some d →
        d.getInsCacheLineWidth = Params.find env.params.icache_line_width 64)) ∧
    (∀ env : ConstructEnv,
      (isPowerOfTwo (Params.find env.params.icache_line_width 64) = false ∨
        Params.find env.params.uop_cache_entries 128 = 0 ∨
        Params.find env.params.predecode_cache_entries 4 = 0) →
      VanadisDecoder.construct VanadisInstructionLoader.create env = none) ∧
    (∀ (env : ConstructEnv) (d : VanadisDecoder),
      VanadisDecoder.construct VanadisInstructionLoader.create env = some d →
      (∃ k, d.getInsCacheLineWidth = 2 ^ k) ∧
      Params.find env.params.uop_cache_entries 128 ≠ 0 ∧
      Params.find env.params.predecode_cache_entries 4 ≠ 0) ∧
    (∀ (d : VanadisDecoder) (w : Nat),
      (d.setInsCacheLineWidth w).getInsCacheLineWidth = w ∧
      (d.setInsCacheLineWidth w).ins_loader = d.ins_loader.setCacheLineWidth w ∧
      (d.setInsCacheLineWidth w).ins_loader.cache_line_width = w) := by
  refine ⟨?_, ?_, ?_, ?_⟩
  · intro newLoader env
    constructor
    · rw [construct_eq]
      cases hl : newLoader (Params.find env.params.uop_cache_entries 128)
          (Params.find env.params.predecode_cache_entries 4)
          (Params.find env.params.icache_line_width 64) with
      | none => simp
      | some loader0 =>
        cases hos : env.os_handler with
        | none => simp
        | some os => simp
    · intro d h
      obtain ⟨_, _, _, _, hw, _⟩ := construct_some h
      exact hw
  · intro env hbad
    rw [construct_eq, (create_eq_none_iff _ _ _).2 hbad]
  · intro env d h
    obtain ⟨loader0, hl, _, _, hw, _⟩ := construct_some h
    have hne : VanadisInstructionLoader.create (Params.find env.params.uop_cache_entries 128)
        (Params.find env.params.predecode_cache_entries 4)
        (Params.find env.params.icache_line_width 64) ≠ none := by
      rw [hl]
      simp
    rw [Ne, create_eq_none_iff] at hne
    simp only [not_or] at hne
    refine ⟨?_, hne.2.1, hne.2.2⟩
    show ∃ k, d.icache_line_width = 2 ^ k
    rw [hw]
    exact (isPowerOfTwo_iff _).1 (by simpa using hne.1)
  · intro d w
    exact ⟨rfl, rfl, rfl⟩

/-- Witness for C9: with the loader's constructor of the spec a line width of 3 is
rejected at construction. -/
theorem lineWidth_checked_only_at_construction_witness :
    VanadisDecoder.construct VanadisInstructionLoader.create
      { sampleEnv with params := { sampleEnv.params with icache_line_width := some 3 } } = none :=
  lineWidth_checked_only_at_construction.2.1 _ (Or.inl (by decide))

/-- C9 (as stated) fails: on the decoder constructed from the default configuration,
`setInsCacheLineWidth(3)` succeeds and leaves the line width 3, which is not a power of
two. -/
theorem lineWidth_three_after_set :
    VanadisDecoder.construct VanadisInstructionLoader.create sampleEnv = some sampleDecoder ∧
    (sampleDecoder.setInsCacheLineWidth 3).getInsCacheLineWidth = 3 ∧
    ¬ ∃ k, (sampleDecoder.setInsCacheLineWidth 3).getInsCacheLineWidth = 2 ^ k := by
  refine ⟨by decide, rfl, ?_⟩
  rw [← isPowerOfTwo_iff]
  decide

/-- Delivery of a response that matches an outstanding request is accepted and the
line becomes the most recently used entry of the Predecode Cache. -/
theorem acceptResponse_of_outstanding (l : VanadisInstructionLoader) (resp : FetchResponse)
    (hcap : l.predecode_cache_entries ≠ 0)
    (hout : ∃ r ∈ l.outstanding, r.requestId = resp.requestId) :
    ∃ r0 ∈ l.outstanding, r0.requestId = resp.requestId ∧
      (l.acceptResponse resp).1 = true ∧
      (l.acceptResponse resp).2.predecode_cache.head?
        = some { lineKey := r0.lineKey, payload := resp.bytes, valid := true } ∧
      (l.acceptResponse resp).2.outstanding
        = l.outstanding.filter (fun q => q.requestId != resp.requestId) := by
  obtain ⟨r, hr, hid⟩ := hout
  cases hf : l.outstanding.find? (fun r => r.requestId == resp.requestId) with
  | none =>
    rw [List.find?_eq_none] at hf
    exact absurd (by simpa using hid) (hf r hr)
  | some r0 =>
    have hmem : r0 ∈ l.outstanding := List.mem_of_find?_eq_some hf
    have hid0 : r0.requestId = resp.requestId := by
      have := List.find?_some hf
      simpa using this
    refine ⟨r0, hmem, hid0, ?_, ?_, ?_⟩
    · simp [VanadisInstructionLoader.acceptResponse, hf]
    · simp only [VanadisInstructionLoader.acceptResponse, hf, VanadisInstructionLoader.insertLine]
      obtain ⟨n, hn⟩ := Nat.exists_eq_succ_of_ne_zero hcap
      cases l.mode
      · simp [hn, List.take_succ_cons]
      · simp
    · simp [VanadisInstructionLoader.acceptResponse, hf]

/-- C8 (amended): let a line-fetch request be outstanding when
`setInstructionPointerAfterMisspeculate` is called, and let its response be delivered
afterwards through `acceptCacheResponse`. When the decoder's
`clearDecoderAfterMisspeculate` hook flushes the loader's outstanding requests, the
response is discarded: the verdict is `false` and the decoder, caches and statistics
included, is exactly the state the flush left, which still holds every resident cache
entry; without a flush the same response is accepted and cached. With the empty
base-class hook nothing is flushed and the delivery is handled exactly as without a
flush. -/
theorem stale_response_discarded_after_flushing_hook (s : VanadisDecoder) (a : Nat)
    (resp : FetchResponse)
    (hcap : s.ins_loader.predecode_cache_entries ≠ 0)
    (hout : ∃ r ∈ s.ins_loader.outstanding, r.requestId = resp.requestId) :
    ((s.setInstructionPointerAfterMisspeculate flushingHook a).acceptCacheResponse resp
        = (false, s.setInstructionPointerAfterMisspeculate flushingHook a)) ∧
    ((s.setInstructionPointerAfterMisspeculate flushingHook a).getInstructionPointer = a ∧
      (s.setInstructionPointerAfterMisspeculate flushingHook a).ins_loader.predecode_cache
        = s.ins_loader.predecode_cache ∧
      (s.setInstructionPointerAfterMisspeculate flushingHook a).ins_loader.uop_cache
        = s.ins_loader.uop_cache) ∧
    (∃ r0 ∈ s.ins_loader.outstanding, r0.requestId = resp.requestId ∧
      (s.acceptCacheResponse resp).1 = true ∧
      (s.acceptCacheResponse resp).2.ins_loader.predecode_cache.head?
        = some { lineKey := r0.lineKey, payload := resp.bytes, valid := true }) ∧
    ((s.setInstructionPointerAfterMisspeculate clearDecoderAfterMisspeculate a).acceptCacheResponse
        resp
      = ((s.acceptCacheResponse resp).1,
          (s.acceptCacheResponse resp).2.setInstructionPointer a)) := by
  refine ⟨rfl, ⟨rfl, rfl, rfl⟩, ?_, rfl⟩
  obtain ⟨r0, hmem, hid, h1, h2, _⟩ := acceptResponse_of_outstanding s.ins_loader resp hcap hout
  exact ⟨r0, hmem, hid, h1, h2⟩

/-- Witness for C8: the sample decoder with request 7 outstanding. -/
theorem stale_response_discarded_after_flushing_hook_witness :
    (∃ r ∈ pendingDecoder.ins_loader.outstanding, r.requestId = sampleResponse.requestId) ∧
    (pendingDecoder.setInstructionPointerAfterMisspeculate flushingHook 0x2000).acceptCacheResponse
        sampleResponse
      = (false, pendingDecoder.setInstructionPointerAfterMisspeculate flushingHook 0x2000) :=
  ⟨⟨{ lineKey := 0x1000, requestId := 7 }, by decide, rfl⟩,
    (stale_response_discarded_after_flushing_hook pendingDecoder 0x2000 sampleResponse
      (by decide) ⟨{ lineKey := 0x1000, requestId := 7 }, by decide, rfl⟩).1⟩

/-- C8 (as stated) fails for a decoder that keeps the base-class hook: request 7 for
line `0x1000` is outstanding, `setInstructionPointerAfterMisspeculate(0x2000)` is called,
and the response delivered afterwards is accepted and fills the empty Predecode
Cache. -/
theorem stale_response_cached_with_base_hook :
    pendingDecoder.ins_loader.predecode_cache = [] ∧
    ((pendingDecoder.setInstructionPointerAfterMisspeculate clearDecoderAfterMisspeculate
        0x2000).acceptCacheResponse sampleResponse).1 = true ∧
    ((pendingDecoder.setInstructionPointerAfterMisspeculate clearDecoderAfterMisspeculate
        0x2000).acceptCacheResponse sampleResponse).2.ins_loader.predecode_cache
      = [{ lineKey := 0x1000, payload := [0x13, 0x00, 0x00, 0x00], valid := true }] ∧
    ((pendingDecoder.setInstructionPointerAfterMisspeculate clearDecoderAfterMisspeculate
        0x2000).acceptCacheResponse sampleResponse).2
      ≠ pendingDecoder.setInstructionPointerAfterMisspeculate clearDecoderAfterMisspeculate
        0x2000 := by
  decide

/-! ## The conversion micro-op -/

open VanadisGPR2FPInstruction

/-- The constructor always completes; its result written out. -/
theorem construct_ok (g f : RegFormat) (b : Bool) (addr thr : Nat) (opts : VanadisDecoderOptions)
    (fl : Option Nat) (fp_dest int_src : Nat) :
    VanadisGPR2FPInstruction.construct g f b addr thr opts fl fp_dest int_src =
      .ok { VanadisFloatingPointInstruction.init g f b addr thr opts fl 1 0 1 0 0
              (if Fractures f opts then 2 else 1) 0 (if Fractures f opts then 2 else 1) with
            isa_int_regs_in := [int_src]
            isa_fp_regs_out :=
              if Fractures f opts then [fp_dest, (fp_dest + 1) % 2 ^ 16] else [fp_dest] } := by
  by_cases hF : Fractures f opts
  · have hF2 := hF
    unfold Fractures at hF2
    simp [VanadisGPR2FPInstruction.construct, VanadisFloatingPointInstruction.init, writeSlot,
      hF, hF2, bind, Except.bind, pure, Except.pure]
  · have hF2 := hF
    unfold Fractures at hF2
    simp [VanadisGPR2FPInstruction.construct, VanadisFloatingPointInstruction.init, writeSlot,
      hF, hF2, bind, Except.bind, pure, Except.pure]

/-- The instruction handed to `execute`, written out: renaming succeeds exactly when it
fills the slots the constructor allocated. -/
theorem issue_eq (g f : RegFormat) (b : Bool) (addr thr : Nat) (opts : VanadisDecoderOptions)
    (fl : Option Nat) (fp_dest int_src : Nat) (pin pout : List Nat) :
    issue g f b addr thr opts fl fp_dest int_src pin pout =
      if pin.length = 1 ∧ pout.length = (if Fractures f opts then 2 else 1) then
        some { VanadisFloatingPointInstruction.init g f b addr thr opts fl 1 0 1 0 0
                (if Fractures f opts then 2 else 1) 0 (if Fractures f opts then 2 else 1) with
               isa_int_regs_in := [int_src]
               isa_fp_regs_out :=
                 if Fractures f opts then [fp_dest, (fp_dest + 1) % 2 ^ 16] else [fp_dest]
               phys_int_regs_in := pin
               phys_fp_regs_out := pout }
      else none := by
  unfold issue
  rw [construct_ok]
  simp only [assignPhysicalRegisters, VanadisFloatingPointInstruction.init]

/-- What renaming leaves in the fields of an issued instruction. -/
theorem issue_fields {g f : RegFormat} {b : Bool} {addr thr : Nat} {opts : VanadisDecoderOptions}
    {fl : Option Nat} {fp_dest int_src : Nat} {pin pout : List Nat}
    {ins : VanadisGPR2FPInstruction}
    (h : issue g f b addr thr opts fl fp_dest int_src pin pout = some ins) :
    ins.gpr_format = g ∧ ins.fp_format = f ∧ ins.is_bitwise = b ∧ ins.isa_options = opts ∧
    ins.phys_int_regs_in = pin ∧ ins.phys_fp_regs_out = pout ∧
    ins.isa_int_regs_in = [int_src] ∧
    ins.isa_fp_regs_out
      = (if Fractures f opts then [fp_dest, (fp_dest + 1) % 2 ^ 16] else [fp_dest]) ∧
    ins.hasExecuted = false ∧ ins.flag_checks = [] ∧
    pin.length = 1 ∧ pout.length = (if Fractures f opts then 2 else 1) := by
  rw [issue_eq] at h
  by_cases hlen : pin.length = 1 ∧ pout.length = (if Fractures f opts then 2 else 1)
  · rw [if_pos hlen] at h
    simp only [Option.some.injEq] at h
    subst h
    exact ⟨rfl, rfl, rfl, rfl, rfl, rfl, rfl, rfl, rfl, rfl, hlen.1, hlen.2⟩
  · rw [if_neg hlen] at h
    exact absurd h (by simp)

/-- A store that fits the register succeeds, changes that register only and leaves the
rest of the file. -/
theorem setFPReg_ok (rf : VanadisRegisterFile) (size reg val : Nat)
    (h : size ≤ rf.fp_reg_width) :
    ∃ rf1, rf.setFPReg size reg val = .ok rf1 ∧
      rf1.fp_reg_storage reg = val % 2 ^ (8 * size) ∧
      (∀ r, r ≠ reg → rf1.fp_reg_storage r = rf.fp_reg_storage r) ∧
      rf1.fp_reg_width = rf.fp_reg_width ∧ rf1.int_reg_storage = rf.int_reg_storage := by
  refine ⟨{ rf with fp_reg_storage := fun r => if r = reg then val % 2 ^ (8 * size)
                                              else rf.fp_reg_storage r }, ?_, ?_, ?_, rfl, rfl⟩
  · simp only [VanadisRegisterFile.setFPReg, h, if_true]
  · simp
  · intro r hr
    simp [hr]

/-- A store wider than the register is refused. -/
theorem setFPReg_error (rf : VanadisRegisterFile) (size reg val : Nat)
    (h : ¬ size ≤ rf.fp_reg_width) :
    rf.setFPReg size reg val = .error Fault.registerFile := by
  simp [VanadisRegisterFile.setFPReg, h]

/-- Fracture into a file of 4-byte registers succeeds: the second register receives the
high half, the first the low half, nothing else changes. -/
theorem fractureToRegisters_ok (rf : VanadisRegisterFile) (lo hi value : Nat)
    (h : rf.fp_reg_width = 4) :
    ∃ rf1, fractureToRegisters rf lo hi value = .ok rf1 ∧
      rf1.fp_reg_storage hi = value / 2 ^ 32 % 2 ^ 32 ∧
      (lo ≠ hi → rf1.fp_reg_storage lo = value % 2 ^ 32) ∧
      (∀ r, r ≠ lo → r ≠ hi → rf1.fp_reg_storage r = rf.fp_reg_storage r) ∧
      rf1.fp_reg_width = rf.fp_reg_width ∧ rf1.int_reg_storage = rf.int_reg_storage := by
  obtain ⟨rfa, ha, ha1, ha2, ha3, ha4⟩ := setFPReg_ok rf 4 lo (value % 2 ^ 32) (by omega)
  obtain ⟨rfb, hb, hb1, hb2, hb3, hb4⟩ :=
    setFPReg_ok rfa 4 hi (value / 2 ^ 32 % 2 ^ 32) (by omega)
  refine ⟨rfb, ?_, ?_, ?_, ?_, by rw [hb3, ha3], by rw [hb4, ha4]⟩
  · simp only [fractureToRegisters, VanadisRegisterFile.getFPRegWidth, h, if_true, ha, hb,
      bind, Except.bind]
  · rw [hb1]
    norm_num
  · intro hne
    rw [hb2 lo hne, ha1]
    norm_num
  · intro r h1 h2
    rw [hb2 r h2, ha2 r h1]

/-- Fracture into a file whose registers are not 4 bytes wide is refused. -/
theorem fractureToRegisters_error (rf : VanadisRegisterFile) (lo hi value : Nat)
    (h : rf.fp_reg_width ≠ 4) :
    fractureToRegisters rf lo hi value = .error Fault.registerFile := by
  simp [fractureToRegisters, VanadisRegisterFile.getFPRegWidth, h]

/-- In bitwise mode `execute` is `bitwise_convert` followed by `markExecuted`. -/
theorem execute_bitwise (P : FPPrimitives) (ins : VanadisGPR2FPInstruction)
    (rf : VanadisRegisterFile) (hb : ins.is_bitwise = true) :
    execute P ins rf =
      match bitwise_convert ins rf with
      | .ok rf1 => .ok (rf1, ins.markExecuted)
      | .error e => .error e := by
  simp only [execute, hb, if_true, bind, Except.bind, pure, Except.pure]
  cases bitwise_convert ins rf <;> rfl

/-- In numeric mode `execute` is `convert` followed by `markExecuted`. -/
theorem execute_numeric (P : FPPrimitives) (ins : VanadisGPR2FPInstruction)
    (rf : VanadisRegisterFile) (hb : ins.is_bitwise = false) :
    execute P ins rf =
      match convert P ins rf with
      | .ok st => .ok (st.1, st.2.markExecuted)
      | .error e => .error e := by
  simp only [execute, hb, bind, Except.bind, pure, Except.pure]
  cases convert P ins rf <;> rfl

/-- The write performed by `bitwise_convert`, single destination. -/
theorem bitwise_convert_single (ins : VanadisGPR2FPInstruction) (rf : VanadisRegisterFile)
    (p r0 : Nat) (hin : ins.phys_int_regs_in = [p]) (hout : ins.phys_fp_regs_out = [r0])
    (hF : ¬ Fractures ins.fp_format ins.isa_options) :
    bitwise_convert ins rf =
      if ins.fp_format = RegFormat.uint64_t ∧ ins.gpr_format = RegFormat.uint64_t then
        (if 8 = rf.fp_reg_width then rf.setFPReg 8 r0 (rf.getIntReg 8 p)
         else rf.setFPReg 4 r0 (rf.getIntReg 8 p % 2 ^ 32))
      else if ins.fp_format = RegFormat.uint32_t ∧ ins.gpr_format = RegFormat.uint32_t then
        (if 8 = rf.fp_reg_width then rf.setFPReg 8 r0 (0xffffffff00000000 ||| rf.getIntReg 4 p)
         else rf.setFPReg 4 r0 (rf.getIntReg 4 p % 2 ^ 32))
      else .error Fault.contractViolation := by
  have hF2 := hF
  unfold Fractures at hF2
  unfold bitwise_convert
  simp only [hin, hout, readSlot, hF2, if_false, VanadisRegisterFile.getFPRegWidth]
  by_cases h64 : ins.fp_format = RegFormat.uint64_t ∧ ins.gpr_format = RegFormat.uint64_t
  · simp [h64, RegFormat.sizeof, bind, Except.bind]
  · by_cases h32 : ins.fp_format = RegFormat.uint32_t ∧ ins.gpr_format = RegFormat.uint32_t
    · by_cases hw : 8 = rf.fp_reg_width
      · simp [h32, hw, RegFormat.sizeof, bind, Except.bind]
      · simp [h32, hw, RegFormat.sizeof, bind, Except.bind]
    · simp [h64, h32, bind, Except.bind]

/-- The write performed by `bitwise_convert`, fractured destination. -/
theorem bitwise_convert_pair (ins : VanadisGPR2FPInstruction) (rf : VanadisRegisterFile)
    (p r0 r1 : Nat) (hin : ins.phys_int_regs_in = [p]) (hout : ins.phys_fp_regs_out = [r0, r1])
    (hF : Fractures ins.fp_format ins.isa_options) :
    bitwise_convert ins rf =
      if ins.fp_format = RegFormat.uint64_t ∧ ins.gpr_format = RegFormat.uint64_t then
        fractureToRegisters rf r0 r1 (rf.getIntReg 8 p)
      else .error Fault.contractViolation := by
  have hF2 := hF
  unfold Fractures at hF2
  have hn32 : ins.fp_format ≠ RegFormat.uint32_t := by
    intro h
    rw [h] at hF2
    exact absurd hF2.1 (by decide)
  unfold bitwise_convert
  simp only [hin, hout, readSlot, hF2, VanadisRegisterFile.getFPRegWidth]
  by_cases h64 : ins.fp_format = RegFormat.uint64_t ∧ ins.gpr_format = RegFormat.uint64_t
  · simp [h64, RegFormat.sizeof, bind, Except.bind]
  · simp [h64, hn32, bind, Except.bind]

/-- The write and the flag evaluation performed by `convert`, single destination. -/
theorem convert_single (P : FPPrimitives) (ins : VanadisGPR2FPInstruction)
    (rf : VanadisRegisterFile) (p r0 i : Nat) (hin : ins.phys_int_regs_in = [p])
    (hout : ins.phys_fp_regs_out = [r0]) (hisa : ins.isa_int_regs_in = [i])
    (hF : ¬ Fractures ins.fp_format ins.isa_options) :
    convert P ins rf =
      match (if 8 = rf.fp_reg_width ∧ 4 = ins.fp_format.sizeof then
          rf.setFPReg 8 r0 (0xffffffff00000000 |||
            (P.convertTo_uint64 ins.fp_format
              (P.static_cast ins.gpr_format ins.fp_format (rf.getIntReg ins.gpr_format.sizeof p)
                % 2 ^ (8 * ins.fp_format.sizeof)) % 2 ^ 64))
        else
          rf.setFPReg ins.fp_format.sizeof r0
            (P.static_cast ins.gpr_format ins.fp_format (rf.getIntReg ins.gpr_format.sizeof p)
              % 2 ^ (8 * ins.fp_format.sizeof))) with
      | .ok rf1 =>
        .ok (rf1,
          if i ≠ ins.isa_options.getRegisterIgnoreWrites then
            ins.performFlagChecks
              (P.static_cast ins.gpr_format ins.fp_format (rf.getIntReg ins.gpr_format.sizeof p)
                % 2 ^ (8 * ins.fp_format.sizeof))
          else ins)
      | .error e => .error e := by
  have hF2 := hF
  unfold Fractures at hF2
  unfold convert
  simp only [hin, hout, hisa, readSlot, hF2, if_false, VanadisRegisterFile.getFPRegWidth,
    List.getElem?_cons_zero, bind, Except.bind, pure, Except.pure]
  by_cases hw : 8 = rf.fp_reg_width ∧ 4 = ins.fp_format.sizeof
  · rw [if_pos hw]
    generalize rf.setFPReg 8 r0 _ = res
    cases res with
    | error e => rfl
    | ok rf1 => by_cases hi : i = ins.isa_options.getRegisterIgnoreWrites <;> simp [hi]
  · rw [if_neg hw]
    generalize rf.setFPReg ins.fp_format.sizeof r0 _ = res
    cases res with
    | error e => rfl
    | ok rf1 => by_cases hi : i = ins.isa_options.getRegisterIgnoreWrites <;> simp [hi]

/-- The write and the flag evaluation performed by `convert`, fractured destination. -/
theorem convert_pair (P : FPPrimitives) (ins : VanadisGPR2FPInstruction)
    (rf : VanadisRegisterFile) (p r0 r1 i : Nat) (hin : ins.phys_int_regs_in = [p])
    (hout : ins.phys_fp_regs_out = [r0, r1]) (hisa : ins.isa_int_regs_in = [i])
    (hF : Fractures ins.fp_format ins.isa_options) :
    convert P ins rf =
      match fractureToRegisters rf r0 r1
          (P.static_cast ins.gpr_format ins.fp_format (rf.getIntReg ins.gpr_format.sizeof p)
            % 2 ^ (8 * ins.fp_format.sizeof)) with
      | .ok rf1 =>
        .ok (rf1,
          if i ≠ ins.isa_options.getRegisterIgnoreWrites then
            ins.performFlagChecks
              (P.static_cast ins.gpr_format ins.fp_format (rf.getIntReg ins.gpr_format.sizeof p)
                % 2 ^ (8 * ins.fp_format.sizeof))
          else ins)
      | .error e => .error e := by
  have hF2 := hF
  unfold Fractures at hF2
  unfold convert
  simp only [hin, hout, hisa, readSlot, hF2, VanadisRegisterFile.getFPRegWidth]
  simp only [and_self, if_true, List.getElem?_cons_zero, List.getElem?_cons_succ, bind,
    Except.bind, pure, Except.pure]
  generalize fractureToRegisters rf r0 r1 _ = res
  cases res with
  | error e => rfl
  | ok rf1 => by_cases hi : i = ins.isa_options.getRegisterIgnoreWrites <;> simp [hi]

/-- The all-ones fill placed above a 32-bit value is an addition. -/
theorem fill_or_eq_add (v : Nat) (hv : v < 2 ^ 32) :
    0xffffffff00000000 ||| v = 0xffffffff00000000 + v := by
  have h := Nat.mul_add_lt_is_or hv 0xffffffff
  norm_num at h ⊢
  exact h.symm

/-- Bits `n` to `2 n - 1` of `((2 ^ n - 1) <<< n) ||| y` are all ones. -/
theorem ones_shift_or_shiftRight (n y : Nat) (hy : y < 2 ^ (n + n)) :
    (((2 ^ n - 1) <<< n) ||| y) >>> n = 2 ^ n - 1 := by
  apply Nat.eq_of_testBit_eq
  intro j
  rw [Nat.testBit_shiftRight, Nat.testBit_or, Nat.testBit_shiftLeft,
    Nat.testBit_two_pow_sub_one, Nat.testBit_two_pow_sub_one]
  by_cases hj : j < n
  · simp [hj]
  · have : y < 2 ^ (n + j) :=
      lt_of_lt_of_le hy (Nat.pow_le_pow_right (by decide) (by omega))
    simp [hj, Nat.testBit_lt_two_pow this]

/-- The upper half of a filled 64-bit value is `0xFFFFFFFF`. -/
theorem fill_or_upper (y : Nat) (hy : y < 2 ^ 64) :
    (0xffffffff00000000 ||| y) / 2 ^ 32 = 0xffffffff := by
  have h := ones_shift_or_shiftRight 32 y hy
  rw [Nat.shiftRight_eq_div_pow] at h
  exact h

/-- A filled 64-bit value is a 64-bit value. -/
theorem fill_or_lt (y : Nat) (hy : y < 2 ^ 64) : 0xffffffff00000000 ||| y < 2 ^ 64 :=
  Nat.or_lt_two_pow (by decide) hy

/-- An integer register read at `size` bytes is below `2 ^ (8 * size)`. -/
theorem getIntReg_lt (rf : VanadisRegisterFile) (size reg : Nat) :
    rf.getIntReg size reg < 2 ^ (8 * size) :=
  Nat.mod_lt _ (Nat.two_pow_pos _)

/-- A completed store fitted the register, changed that register only and left the rest
of the file. -/
theorem setFPReg_inv {rf rf1 : VanadisRegisterFile} {size reg val : Nat}
    (h : rf.setFPReg size reg val = .ok rf1) :
    size ≤ rf.fp_reg_width ∧ rf1.fp_reg_storage reg = val % 2 ^ (8 * size) ∧
      (∀ r, r ≠ reg → rf1.fp_reg_storage r = rf.fp_reg_storage r) ∧
      rf1.fp_reg_width = rf.fp_reg_width := by
  by_cases hle : size ≤ rf.fp_reg_width
  · obtain ⟨rf2, h2, h3, h4, h5, _⟩ := setFPReg_ok rf size reg val hle
    rw [h2] at h
    cases h
    exact ⟨hle, h3, h4, h5⟩
  · rw [setFPReg_error rf size reg val hle] at h
    cases h

/-- A completed fracture was into a file of 4-byte registers: the second register holds
the high half, the first the low half, nothing else changed. -/
theorem fractureToRegisters_inv {rf rf1 : VanadisRegisterFile} {lo hi value : Nat}
    (h : fractureToRegisters rf lo hi value = .ok rf1) :
    rf.fp_reg_width = 4 ∧ rf1.fp_reg_storage hi = value / 2 ^ 32 % 2 ^ 32 ∧
      (lo ≠ hi → rf1.fp_reg_storage lo = value % 2 ^ 32) ∧
      (∀ r, r ≠ lo → r ≠ hi → rf1.fp_reg_storage r = rf.fp_reg_storage r) ∧
      rf1.fp_reg_width = rf.fp_reg_width := by
  by_cases hw : rf.fp_reg_width = 4
  · obtain ⟨rf2, h2, h3, h4, h5, h6, _⟩ := fractureToRegisters_ok rf lo hi value hw
    rw [h2] at h
    cases h
    exact ⟨hw, h3, h4, h5, h6⟩
  · rw [fractureToRegisters_error rf lo hi value hw] at h
    cases h

/-- A completed run with a single destination changed no register but that destination;
in bitwise mode the formats were one of the two supported pairs, in numeric mode flag
evaluation was performed exactly when the ISA source is not the ignored-writes
register. -/
theorem execute_single_inv (P : FPPrimitives) {ins ins1 : VanadisGPR2FPInstruction}
    {rf rf1 : VanadisRegisterFile} {p r0 i : Nat} (hin : ins.phys_int_regs_in = [p])
    (hout : ins.phys_fp_regs_out = [r0]) (hisa : ins.isa_int_regs_in = [i])
    (hF : ¬ Fractures ins.fp_format ins.isa_options)
    (hex : execute P ins rf = .ok (rf1, ins1)) :
    (∀ r, r ≠ r0 → rf1.fp_reg_storage r = rf.fp_reg_storage r) ∧
    rf1.fp_reg_width = rf.fp_reg_width ∧
    (ins.is_bitwise = true →
      ins1 = ins.markExecuted ∧
      ((ins.fp_format = RegFormat.uint64_t ∧ ins.gpr_format = RegFormat.uint64_t) ∨
        (ins.fp_format = RegFormat.uint32_t ∧ ins.gpr_format = RegFormat.uint32_t))) ∧
    (ins.is_bitwise = false →
      ins1 = (if i ≠ ins.isa_options.getRegisterIgnoreWrites then
          ins.performFlagChecks
            (P.static_cast ins.gpr_format ins.fp_format (rf.getIntReg ins.gpr_format.sizeof p)
              % 2 ^ (8 * ins.fp_format.sizeof))
        else ins).markExecuted) := by
  cases hb : ins.is_bitwise with
  | true =>
    rw [execute_bitwise P ins rf hb, bitwise_convert_single ins rf p r0 hin hout hF] at hex
    by_cases h64 : ins.fp_format = RegFormat.uint64_t ∧ ins.gpr_format = RegFormat.uint64_t
    · rw [if_pos h64] at hex
      by_cases hw : 8 = rf.fp_reg_width
      · rw [if_pos hw] at hex
        cases hs : rf.setFPReg 8 r0 (rf.getIntReg 8 p) with
        | error e => rw [hs] at hex; cases hex
        | ok rf2 =>
          rw [hs] at hex
          cases hex
          obtain ⟨_, _, h3, h4⟩ := setFPReg_inv hs
          exact ⟨h3, h4, fun _ => ⟨rfl, Or.inl h64⟩, fun hc => Bool.noConfusion hc⟩
      · rw [if_neg hw] at hex
        cases hs : rf.setFPReg 4 r0 (rf.getIntReg 8 p % 2 ^ 32) with
        | error e => rw [hs] at hex; cases hex
        | ok rf2 =>
          rw [hs] at hex
          cases hex
          obtain ⟨_, _, h3, h4⟩ := setFPReg_inv hs
          exact ⟨h3, h4, fun _ => ⟨rfl, Or.inl h64⟩, fun hc => Bool.noConfusion hc⟩
    · rw [if_neg h64] at hex
      by_cases h32 : ins.fp_format = RegFormat.uint32_t ∧ ins.gpr_format = RegFormat.uint32_t
      · rw [if_pos h32] at hex
        by_cases hw : 8 = rf.fp_reg_width
        · rw [if_pos hw] at hex
          cases hs : rf.setFPReg 8 r0 (0xffffffff00000000 ||| rf.getIntReg 4 p) with
          | error e => rw [hs] at hex; cases hex
          | ok rf2 =>
            rw [hs] at hex
            cases hex
            obtain ⟨_, _, h3, h4⟩ := setFPReg_inv hs
            exact ⟨h3, h4, fun _ => ⟨rfl, Or.inr h32⟩, fun hc => Bool.noConfusion hc⟩
        · rw [if_neg hw] at hex
          cases hs : rf.setFPReg 4 r0 (rf.getIntReg 4 p % 2 ^ 32) with
          | error e => rw [hs] at hex; cases hex
          | ok rf2 =>
            rw [hs] at hex
            cases hex
            obtain ⟨_, _, h3, h4⟩ := setFPReg_inv hs
            exact ⟨h3, h4, fun _ => ⟨rfl, Or.inr h32⟩, fun hc => Bool.noConfusion hc⟩
      · rw [if_neg h32] at hex
        cases hex
  | false =>
    rw [execute_numeric P ins rf hb, convert_single P ins rf p r0 i hin hout hisa hF] at hex
    by_cases hw : 8 = rf.fp_reg_width ∧ 4 = ins.fp_format.sizeof
    · rw [if_pos hw] at hex
      generalize hs : rf.setFPReg 8 r0 _ = res at hex
      cases res with
      | error e => cases hex
      | ok rf2 =>
        cases hex
        obtain ⟨_, _, h3, h4⟩ := setFPReg_inv hs
        exact ⟨h3, h4, fun hc => Bool.noConfusion hc, fun _ => rfl⟩
    · rw [if_neg hw] at hex
      generalize hs : rf.setFPReg ins.fp_format.sizeof r0 _ = res at hex
      cases res with
      | error e => cases hex
      | ok rf2 =>
        cases hex
        obtain ⟨_, _, h3, h4⟩ := setFPReg_inv hs
        exact ⟨h3, h4, fun hc => Bool.noConfusion hc, fun _ => rfl⟩

/-- The value a completed run with a single destination left in that destination. -/
theorem execute_single_stored (P : FPPrimitives) {ins ins1 : VanadisGPR2FPInstruction}
    {rf rf1 : VanadisRegisterFile} {p r0 i : Nat} (hin : ins.phys_int_regs_in = [p])
    (hout : ins.phys_fp_regs_out = [r0]) (hisa : ins.isa_int_regs_in = [i])
    (hF : ¬ Fractures ins.fp_format ins.isa_options)
    (hex : execute P ins rf = .ok (rf1, ins1)) :
    (ins.is_bitwise = true → ins.fp_format = RegFormat.uint64_t →
      ins.gpr_format = RegFormat.uint64_t →
      rf1.fp_reg_storage r0 =
        (if rf.fp_reg_width = 8 then rf.getIntReg 8 p else rf.getIntReg 8 p % 2 ^ 32)) ∧
    (ins.is_bitwise = true → ins.fp_format = RegFormat.uint32_t →
      ins.gpr_format = RegFormat.uint32_t →
      rf1.fp_reg_storage r0 =
        (if rf.fp_reg_width = 8 then 0xffffffff00000000 ||| rf.getIntReg 4 p
         else rf.getIntReg 4 p)) ∧
    (ins.is_bitwise = false →
      rf1.fp_reg_storage r0 =
        (if rf.fp_reg_width = 8 ∧ ins.fp_format.sizeof = 4 then
          0xffffffff00000000 |||
            (P.convertTo_uint64 ins.fp_format
              (P.static_cast ins.gpr_format ins.fp_format (rf.getIntReg ins.gpr_format.sizeof p)
                % 2 ^ (8 * ins.fp_format.sizeof)) % 2 ^ 64)
        else
          P.static_cast ins.gpr_format ins.fp_format (rf.getIntReg ins.gpr_format.sizeof p)
            % 2 ^ (8 * ins.fp_format.sizeof))) := by
  have hv8 := getIntReg_lt rf 8 p
  have hv4 := getIntReg_lt rf 4 p
  norm_num at hv8 hv4
  refine ⟨?_, ?_, ?_⟩
  · intro hb hf hg
    rw [execute_bitwise P ins rf hb, bitwise_convert_single ins rf p r0 hin hout hF,
      if_pos ⟨hf, hg⟩] at hex
    by_cases hw : 8 = rf.fp_reg_width
    · rw [if_pos hw] at hex
      rw [if_pos hw.symm]
      cases hs : rf.setFPReg 8 r0 (rf.getIntReg 8 p) with
      | error e => rw [hs] at hex; cases hex
      | ok rf2 =>
        rw [hs] at hex
        cases hex
        rw [(setFPReg_inv hs).2.1]
        exact Nat.mod_eq_of_lt (by norm_num; exact hv8)
    · rw [if_neg hw] at hex
      rw [if_neg (fun hc => hw hc.symm)]
      cases hs : rf.setFPReg 4 r0 (rf.getIntReg 8 p % 2 ^ 32) with
      | error e => rw [hs] at hex; cases hex
      | ok rf2 =>
        rw [hs] at hex
        cases hex
        rw [(setFPReg_inv hs).2.1]
        norm_num
  · intro hb hf hg
    have h64 : ¬ (ins.fp_format = RegFormat.uint64_t ∧ ins.gpr_format = RegFormat.uint64_t) := by
      rw [hf]
      simp
    rw [execute_bitwise P ins rf hb, bitwise_convert_single ins rf p r0 hin hout hF,
      if_neg h64, if_pos ⟨hf, hg⟩] at hex
    by_cases hw : 8 = rf.fp_reg_width
    · rw [if_pos hw] at hex
      rw [if_pos hw.symm]
      cases hs : rf.setFPReg 8 r0 (0xffffffff00000000 ||| rf.getIntReg 4 p) with
      | error e => rw [hs] at hex; cases hex
      | ok rf2 =>
        rw [hs] at hex
        cases hex
        rw [(setFPReg_inv hs).2.1]
        exact Nat.mod_eq_of_lt (fill_or_lt _ (lt_trans hv4 (by norm_num)))
    · rw [if_neg hw] at hex
      rw [if_neg (fun hc => hw hc.symm)]
      cases hs : rf.setFPReg 4 r0 (rf.getIntReg 4 p % 2 ^ 32) with
      | error e => rw [hs] at hex; cases hex
      | ok rf2 =>
        rw [hs] at hex
        cases hex
        rw [(setFPReg_inv hs).2.1]
        norm_num
        exact hv4
  · intro hb
    rw [execute_numeric P ins rf hb, convert_single P ins rf p r0 i hin hout hisa hF] at hex
    by_cases hw : 8 = rf.fp_reg_width ∧ 4 = ins.fp_format.sizeof
    · rw [if_pos hw] at hex
      rw [if_pos ⟨hw.1.symm, hw.2.symm⟩]
      generalize hs : rf.setFPReg 8 r0 _ = res at hex
      cases res with
      | error e => cases hex
      | ok rf2 =>
        cases hex
        rw [(setFPReg_inv hs).2.1]
        exact Nat.mod_eq_of_lt (fill_or_lt _ (Nat.mod_lt _ (Nat.two_pow_pos _)))
    · rw [if_neg hw] at hex
      rw [if_neg (fun hc => hw ⟨hc.1.symm, hc.2.symm⟩)]
      generalize hs : rf.setFPReg ins.fp_format.sizeof r0 _ = res at hex
      cases res with
      | error e => cases hex
      | ok rf2 =>
        cases hex
        rw [(setFPReg_inv hs).2.1]
        exact Nat.mod_mod _ _

/-- A completed run with a fractured destination was into a file of 4-byte registers
and wrote the two halves of its 64-bit result to the two destinations, nothing else. -/
theorem execute_pair_inv (P : FPPrimitives) {ins ins1 : VanadisGPR2FPInstruction}
    {rf rf1 : VanadisRegisterFile} {p r0 r1 i : Nat} (hin : ins.phys_int_regs_in = [p])
    (hout : ins.phys_fp_regs_out = [r0, r1]) (hisa : ins.isa_int_regs_in = [i])
    (hF : Fractures ins.fp_format ins.isa_options)
    (hex : execute P ins rf = .ok (rf1, ins1)) :
    rf.fp_reg_width = 4 ∧
    (∀ r, r ≠ r0 → r ≠ r1 → rf1.fp_reg_storage r = rf.fp_reg_storage r) ∧
    (ins.is_bitwise = true →
      ins1 = ins.markExecuted ∧
      (ins.fp_format = RegFormat.uint64_t ∧ ins.gpr_format = RegFormat.uint64_t) ∧
      rf1.fp_reg_storage r1 = rf.getIntReg 8 p / 2 ^ 32 % 2 ^ 32 ∧
      (r0 ≠ r1 → rf1.fp_reg_storage r0 = rf.getIntReg 8 p % 2 ^ 32)) ∧
    (ins.is_bitwise = false →
      ins1 = (if i ≠ ins.isa_options.getRegisterIgnoreWrites then
          ins.performFlagChecks
            (P.static_cast ins.gpr_format ins.fp_format (rf.getIntReg ins.gpr_format.sizeof p)
              % 2 ^ (8 * ins.fp_format.sizeof))
        else ins).markExecuted ∧
      rf1.fp_reg_storage r1 =
        (P.static_cast ins.gpr_format ins.fp_format (rf.getIntReg ins.gpr_format.sizeof p)
          % 2 ^ (8 * ins.fp_format.sizeof)) / 2 ^ 32 % 2 ^ 32 ∧
      (r0 ≠ r1 → rf1.fp_reg_storage r0 =
        (P.static_cast ins.gpr_format ins.fp_format (rf.getIntReg ins.gpr_format.sizeof p)
          % 2 ^ (8 * ins.fp_format.sizeof)) % 2 ^ 32)) := by
  cases hb : ins.is_bitwise with
  | true =>
    rw [execute_bitwise P ins rf hb, bitwise_convert_pair ins rf p r0 r1 hin hout hF] at hex
    by_cases h64 : ins.fp_format = RegFormat.uint64_t ∧ ins.gpr_format = RegFormat.uint64_t
    · rw [if_pos h64] at hex
      cases hs : fractureToRegisters rf r0 r1 (rf.getIntReg 8 p) with
      | error e => rw [hs] at hex; cases hex
      | ok rf2 =>
        rw [hs] at hex
        cases hex
        obtain ⟨h1, h2, h3, h4, _⟩ := fractureToRegisters_inv hs
        exact ⟨h1, h4, fun _ => ⟨rfl, h64, h2, h3⟩, fun hc => Bool.noConfusion hc⟩
    · rw [if_neg h64] at hex
      cases hex
  | false =>
    rw [execute_numeric P ins rf hb, convert_pair P ins rf p r0 r1 i hin hout hisa hF] at hex
    generalize hs : fractureToRegisters rf r0 r1 _ = res at hex
    cases res with
    | error e => cases hex
    | ok rf2 =>
      cases hex
      obtain ⟨h1, h2, h3, h4, _⟩ := fractureToRegisters_inv hs
      exact ⟨h1, h4, fun hc => Bool.noConfusion hc, fun _ => ⟨rfl, h2, h3⟩⟩

/-- In numeric mode the run completes whenever the register file can hold the result,
single destination. -/
theorem execute_numeric_single_ok (P : FPPrimitives) (ins : VanadisGPR2FPInstruction)
    (rf : VanadisRegisterFile) (p r0 i : Nat) (hb : ins.is_bitwise = false)
    (hin : ins.phys_int_regs_in = [p]) (hout : ins.phys_fp_regs_out = [r0])
    (hisa : ins.isa_int_regs_in = [i]) (hF : ¬ Fractures ins.fp_format ins.isa_options)
    (hfit : ins.fp_format.sizeof ≤ rf.fp_reg_width) :
    ∃ rf1, execute P ins rf = .ok (rf1,
        (if i ≠ ins.isa_options.getRegisterIgnoreWrites then
          ins.performFlagChecks
            (P.static_cast ins.gpr_format ins.fp_format (rf.getIntReg ins.gpr_format.sizeof p)
              % 2 ^ (8 * ins.fp_format.sizeof))
        else ins).markExecuted) ∧
      rf1.fp_reg_storage r0 =
        (if 8 = rf.fp_reg_width ∧ 4 = ins.fp_format.sizeof then
          0xffffffff00000000 |||
            (P.convertTo_uint64 ins.fp_format
              (P.static_cast ins.gpr_format ins.fp_format (rf.getIntReg ins.gpr_format.sizeof p)
                % 2 ^ (8 * ins.fp_format.sizeof)) % 2 ^ 64)
        else
          P.static_cast ins.gpr_format ins.fp_format (rf.getIntReg ins.gpr_format.sizeof p)
            % 2 ^ (8 * ins.fp_format.sizeof)) := by
  rw [execute_numeric P ins rf hb, convert_single P ins rf p r0 i hin hout hisa hF]
  by_cases hw : 8 = rf.fp_reg_width ∧ 4 = ins.fp_format.sizeof
  · rw [if_pos hw, if_pos hw]
    obtain ⟨rf1, h1, h2, _⟩ := setFPReg_ok rf 8 r0
      (0xffffffff00000000 |||
        (P.convertTo_uint64 ins.fp_format
          (P.static_cast ins.gpr_format ins.fp_format (rf.getIntReg ins.gpr_format.sizeof p)
            % 2 ^ (8 * ins.fp_format.sizeof)) % 2 ^ 64)) (by omega)
    rw [h1]
    refine ⟨rf1, rfl, ?_⟩
    rw [h2]
    exact Nat.mod_eq_of_lt (fill_or_lt _ (Nat.mod_lt _ (Nat.two_pow_pos _)))
  · rw [if_neg hw, if_neg hw]
    obtain ⟨rf1, h1, h2, _⟩ := setFPReg_ok rf ins.fp_format.sizeof r0
      (P.static_cast ins.gpr_format ins.fp_format (rf.getIntReg ins.gpr_format.sizeof p)
        % 2 ^ (8 * ins.fp_format.sizeof)) hfit
    rw [h1]
    refine ⟨rf1, rfl, ?_⟩
    rw [h2]
    exact Nat.mod_mod _ _

/-- In numeric mode the run completes in a file of 4-byte registers, fractured
destination. -/
theorem execute_numeric_pair_ok (P : FPPrimitives) (ins : VanadisGPR2FPInstruction)
    (rf : VanadisRegisterFile) (p r0 r1 i : Nat) (hb : ins.is_bitwise = false)
    (hin : ins.phys_int_regs_in = [p]) (hout : ins.phys_fp_regs_out = [r0, r1])
    (hisa : ins.isa_int_regs_in = [i]) (hF : Fractures ins.fp_format ins.isa_options)
    (hw : rf.fp_reg_width = 4) :
    ∃ rf1, execute P ins rf = .ok (rf1,
        (if i ≠ ins.isa_options.getRegisterIgnoreWrites then
          ins.performFlagChecks
            (P.static_cast ins.gpr_format ins.fp_format (rf.getIntReg ins.gpr_format.sizeof p)
              % 2 ^ (8 * ins.fp_format.sizeof))
        else ins).markExecuted) := by
  rw [execute_numeric P ins rf hb, convert_pair P ins rf p r0 r1 i hin hout hisa hF]
  obtain ⟨rf1, h1, _⟩ := fractureToRegisters_ok rf r0 r1
    (P.static_cast ins.gpr_format ins.fp_format (rf.getIntReg ins.gpr_format.sizeof p)
      % 2 ^ (8 * ins.fp_format.sizeof)) hw
  rw [h1]
  exact ⟨rf1, rfl⟩

/-- In bitwise mode the run completes for the two supported pairs of formats when the
registers are at least 4 bytes wide, single destination. -/
theorem execute_bitwise_single_ok (P : FPPrimitives) (ins : VanadisGPR2FPInstruction)
    (rf : VanadisRegisterFile) (p r0 : Nat) (hb : ins.is_bitwise = true)
    (hin : ins.phys_int_regs_in = [p]) (hout : ins.phys_fp_regs_out = [r0])
    (hF : ¬ Fractures ins.fp_format ins.isa_options)
    (hsup : (ins.fp_format = RegFormat.uint64_t ∧ ins.gpr_format = RegFormat.uint64_t) ∨
      (ins.fp_format = RegFormat.uint32_t ∧ ins.gpr_format = RegFormat.uint32_t))
    (hw : 4 ≤ rf.fp_reg_width) :
    ∃ rf1, execute P ins rf = .ok (rf1, ins.markExecuted) ∧
      bitwise_convert ins rf = .ok rf1 ∧
      rf1.fp_reg_storage r0 =
        (if ins.fp_format = RegFormat.uint64_t ∧ ins.gpr_format = RegFormat.uint64_t then
          (if 8 = rf.fp_reg_width then rf.getIntReg 8 p else rf.getIntReg 8 p % 2 ^ 32)
        else
          (if 8 = rf.fp_reg_width then 0xffffffff00000000 ||| rf.getIntReg 4 p
           else rf.getIntReg 4 p)) := by
  have hv8 := getIntReg_lt rf 8 p
  have hv4 := getIntReg_lt rf 4 p
  norm_num at hv8 hv4
  rw [execute_bitwise P ins rf hb, bitwise_convert_single ins rf p r0 hin hout hF]
  by_cases h64 : ins.fp_format = RegFormat.uint64_t ∧ ins.gpr_format = RegFormat.uint64_t
  · rw [if_pos h64, if_pos h64]
    by_cases h8 : 8 = rf.fp_reg_width
    · rw [if_pos h8, if_pos h8]
      obtain ⟨rf1, h1, h2, _⟩ := setFPReg_ok rf 8 r0 (rf.getIntReg 8 p) (by omega)
      rw [h1]
      refine ⟨rf1, rfl, rfl, ?_⟩
      rw [h2]
      exact Nat.mod_eq_of_lt (by norm_num; exact hv8)
    · rw [if_neg h8, if_neg h8]
      obtain ⟨rf1, h1, h2, _⟩ := setFPReg_ok rf 4 r0 (rf.getIntReg 8 p % 2 ^ 32) hw
      rw [h1]
      refine ⟨rf1, rfl, rfl, ?_⟩
      rw [h2]
      norm_num
  · have h32 : ins.fp_format = RegFormat.uint32_t ∧ ins.gpr_format = RegFormat.uint32_t := by
      rcases hsup with h | h
      · exact absurd h h64
      · exact h
    rw [if_neg h64, if_neg h64, if_pos h32]
    by_cases h8 : 8 = rf.fp_reg_width
    · rw [if_pos h8, if_pos h8]
      obtain ⟨rf1, h1, h2, _⟩ :=
        setFPReg_ok rf 8 r0 (0xffffffff00000000 ||| rf.getIntReg 4 p) (by omega)
      rw [h1]
      refine ⟨rf1, rfl, rfl, ?_⟩
      rw [h2]
      exact Nat.mod_eq_of_lt (fill_or_lt _ (lt_trans hv4 (by norm_num)))
    · rw [if_neg h8, if_neg h8]
      obtain ⟨rf1, h1, h2, _⟩ := setFPReg_ok rf 4 r0 (rf.getIntReg 4 p % 2 ^ 32) hw
      rw [h1]
      refine ⟨rf1, rfl, rfl, ?_⟩
      rw [h2]
      norm_num
      exact hv4

/-- In bitwise mode the run completes for `uint64_t` formats in a file of 4-byte
registers, fractured destination. -/
theorem execute_bitwise_pair_ok (P : FPPrimitives) (ins : VanadisGPR2FPInstruction)
    (rf : VanadisRegisterFile) (p r0 r1 : Nat) (hb : ins.is_bitwise = true)
    (hin : ins.phys_int_regs_in = [p]) (hout : ins.phys_fp_regs_out = [r0, r1])
    (hF : Fractures ins.fp_format ins.isa_options)
    (hsup : ins.fp_format = RegFormat.uint64_t ∧ ins.gpr_format = RegFormat.uint64_t)
    (hw : rf.fp_reg_width = 4) :
    ∃ rf1, execute P ins rf = .ok (rf1, ins.markExecuted) ∧ bitwise_convert ins rf = .ok rf1 := by
  rw [execute_bitwise P ins rf hb, bitwise_convert_pair ins rf p r0 r1 hin hout hF, if_pos hsup]
  obtain ⟨rf1, h1, _⟩ := fractureToRegisters_ok rf r0 r1 (rf.getIntReg 8 p) hw
  rw [h1]
  exact ⟨rf1, rfl, rfl⟩

/-- The shape of the operand arrays of an issued instruction. -/
theorem issue_shape {g f : RegFormat} {b : Bool} {addr thr : Nat} {opts : VanadisDecoderOptions}
    {fl : Option Nat} {fp_dest int_src : Nat} {pin pout : List Nat}
    {ins : VanadisGPR2FPInstruction}
    (h : issue g f b addr thr opts fl fp_dest int_src pin pout = some ins) :
    (∃ p, pin = [p]) ∧
    (Fractures f opts → ∃ r0 r1, pout = [r0, r1]) ∧
    (¬ Fractures f opts → ∃ r0, pout = [r0]) := by
  obtain ⟨_, _, _, _, _, _, _, _, _, _, hl1, hl2⟩ := issue_fields h
  refine ⟨List.length_eq_one.1 hl1, ?_, ?_⟩
  · intro hF
    rw [if_pos hF] at hl2
    exact List.length_eq_two.1 hl2
  · intro hF
    rw [if_neg hF] at hl2
    exact List.length_eq_one.1 hl2

/-- In bitwise mode every pair of formats other than the two supported ones stops at the
assertion, whatever the register file. -/
theorem bitwise_convert_unsupported {g f : RegFormat} {addr thr : Nat}
    {opts : VanadisDecoderOptions} {fl : Option Nat} {fp_dest int_src : Nat} {pin pout : List Nat}
    {ins : VanadisGPR2FPInstruction}
    (h : issue g f true addr thr opts fl fp_dest int_src pin pout = some ins)
    (rf : VanadisRegisterFile)
    (hn : ¬ ((g = RegFormat.uint64_t ∧ f = RegFormat.uint64_t) ∨
      (g = RegFormat.uint32_t ∧ f = RegFormat.uint32_t))) :
    bitwise_convert ins rf = .error Fault.contractViolation := by
  obtain ⟨hg, hf, hb, ho, hin, hout, _⟩ := issue_fields h
  obtain ⟨⟨p, hp⟩, hs2, hs1⟩ := issue_shape h
  have h64 : ¬ (ins.fp_format = RegFormat.uint64_t ∧ ins.gpr_format = RegFormat.uint64_t) := by
    rw [hf, hg]
    exact fun hc => hn (Or.inl ⟨hc.2, hc.1⟩)
  have h32 : ¬ (ins.fp_format = RegFormat.uint32_t ∧ ins.gpr_format = RegFormat.uint32_t) := by
    rw [hf, hg]
    exact fun hc => hn (Or.inr ⟨hc.2, hc.1⟩)
  by_cases hF : Fractures f opts
  · obtain ⟨r0, r1, hr⟩ := hs2 hF
    rw [bitwise_convert_pair ins rf p r0 r1 (by rw [hin, hp]) (by rw [hout, hr])
      (by rw [hf, ho]; exact hF), if_neg h64]
  · obtain ⟨r0, hr⟩ := hs1 hF
    rw [bitwise_convert_single ins rf p r0 (by rw [hin, hp]) (by rw [hout, hr])
      (by rw [hf, ho]; exact hF), if_neg h64, if_neg h32]

/-- A store either completes or is refused by the register file. -/
theorem setFPReg_cases (rf : VanadisRegisterFile) (size reg val : Nat) :
    (∃ rf1, rf.setFPReg size reg val = .ok rf1) ∨
      rf.setFPReg size reg val = .error Fault.registerFile := by
  by_cases hle : size ≤ rf.fp_reg_width
  · obtain ⟨rf1, h1, _⟩ := setFPReg_ok rf size reg val hle
    exact Or.inl ⟨rf1, h1⟩
  · exact Or.inr (setFPReg_error rf size reg val hle)

/-- A fracture either completes or is refused by the register file. -/
theorem fractureToRegisters_cases (rf : VanadisRegisterFile) (lo hi value : Nat) :
    (∃ rf1, fractureToRegisters rf lo hi value = .ok rf1) ∨
      fractureToRegisters rf lo hi value = .error Fault.registerFile := by
  by_cases hw : rf.fp_reg_width = 4
  · obtain ⟨rf1, h1, _⟩ := fractureToRegisters_ok rf lo hi value hw
    exact Or.inl ⟨rf1, h1⟩
  · exact Or.inr (fractureToRegisters_error rf lo hi value hw)

/-- For a supported pair of formats `bitwise_convert` never stops at the assertion and
never indexes outside the operand arrays: it completes or the register file refuses
the write. -/
theorem bitwise_convert_supported_cases {g f : RegFormat} {addr thr : Nat}
    {opts : VanadisDecoderOptions} {fl : Option Nat} {fp_dest int_src : Nat} {pin pout : List Nat}
    {ins : VanadisGPR2FPInstruction}
    (h : issue g f true addr thr opts fl fp_dest int_src pin pout = some ins)
    (rf : VanadisRegisterFile)
    (hsup : (g = RegFormat.uint64_t ∧ f = RegFormat.uint64_t) ∨
      (g = RegFormat.uint32_t ∧ f = RegFormat.uint32_t)) :
    (∃ rf1, bitwise_convert ins rf = .ok rf1) ∨
      bitwise_convert ins rf = .error Fault.registerFile := by
  obtain ⟨hg, hf, hb, ho, hin, hout, _⟩ := issue_fields h
  obtain ⟨⟨p, hp⟩, hs2, hs1⟩ := issue_shape h
  by_cases hF : Fractures f opts
  · obtain ⟨r0, r1, hr⟩ := hs2 hF
    have h64 : ins.fp_format = RegFormat.uint64_t ∧ ins.gpr_format = RegFormat.uint64_t := by
      rw [hf, hg]
      rcases hsup with hc | hc
      · exact ⟨hc.2, hc.1⟩
      · have := hF.1
        rw [hc.2] at this
        exact absurd this (by decide)
    rw [bitwise_convert_pair ins rf p r0 r1 (by rw [hin, hp]) (by rw [hout, hr])
      (by rw [hf, ho]; exact hF), if_pos h64]
    exact fractureToRegisters_cases _ _ _ _
  · obtain ⟨r0, hr⟩ := hs1 hF
    rw [bitwise_convert_single ins rf p r0 (by rw [hin, hp]) (by rw [hout, hr])
      (by rw [hf, ho]; exact hF)]
    by_cases h64 : ins.fp_format = RegFormat.uint64_t ∧ ins.gpr_format = RegFormat.uint64_t
    · rw [if_pos h64]
      by_cases h8 : 8 = rf.fp_reg_width
      · rw [if_pos h8]
        exact setFPReg_cases _ _ _ _
      · rw [if_neg h8]
        exact setFPReg_cases _ _ _ _
    · have h32 : ins.fp_format = RegFormat.uint32_t ∧ ins.gpr_format = RegFormat.uint32_t := by
        rw [hf, hg]
        rcases hsup with hc | hc
        · exact absurd (by rw [hf, hg]; exact ⟨hc.2, hc.1⟩) h64
        · exact ⟨hc.2, hc.1⟩
      rw [if_neg h64, if_pos h32]
      by_cases h8 : 8 = rf.fp_reg_width
      · rw [if_pos h8]
        exact setFPReg_cases _ _ _ _
      · rw [if_neg h8]
        exact setFPReg_cases _ _ _ _

/-- In numeric mode `convert` never indexes outside the operand arrays: it completes or
the register file refuses the write. -/
theorem convert_issued_cases (P : FPPrimitives) {g f : RegFormat} {addr thr : Nat}
    {opts : VanadisDecoderOptions} {fl : Option Nat} {fp_dest int_src : Nat} {pin pout : List Nat}
    {ins : VanadisGPR2FPInstruction}
    (h : issue g f false addr thr opts fl fp_dest int_src pin pout = some ins)
    (rf : VanadisRegisterFile) :
    (∃ st, convert P ins rf = .ok st) ∨ convert P ins rf = .error Fault.registerFile := by
  obtain ⟨hg, hf, hb, ho, hin, hout, hisa, _⟩ := issue_fields h
  obtain ⟨⟨p, hp⟩, hs2, hs1⟩ := issue_shape h
  by_cases hF : Fractures f opts
  · obtain ⟨r0, r1, hr⟩ := hs2 hF
    rw [convert_pair P ins rf p r0 r1 int_src (by rw [hin, hp]) (by rw [hout, hr]) hisa
      (by rw [hf, ho]; exact hF)]
    rcases fractureToRegisters_cases rf r0 r1
      (P.static_cast ins.gpr_format ins.fp_format (rf.getIntReg ins.gpr_format.sizeof p)
        % 2 ^ (8 * ins.fp_format.sizeof)) with ⟨rf1, h1⟩ | h1
    · rw [h1]
      exact Or.inl ⟨_, rfl⟩
    · rw [h1]
      exact Or.inr rfl
  · obtain ⟨r0, hr⟩ := hs1 hF
    rw [convert_single P ins rf p r0 int_src (by rw [hin, hp]) (by rw [hout, hr]) hisa
      (by rw [hf, ho]; exact hF)]
    by_cases hw : 8 = rf.fp_reg_width ∧ 4 = ins.fp_format.sizeof
    · rw [if_pos hw]
      rcases setFPReg_cases rf 8 r0
        (0xffffffff00000000 |||
          (P.convertTo_uint64 ins.fp_format
            (P.static_cast ins.gpr_format ins.fp_format (rf.getIntReg ins.gpr_format.sizeof p)
              % 2 ^ (8 * ins.fp_format.sizeof)) % 2 ^ 64)) with ⟨rf1, h1⟩ | h1
      · rw [h1]
        exact Or.inl ⟨_, rfl⟩
      · rw [h1]
        exact Or.inr rfl
    · rw [if_neg hw]
      rcases setFPReg_cases rf ins.fp_format.sizeof r0
        (P.static_cast ins.gpr_format ins.fp_format (rf.getIntReg ins.gpr_format.sizeof p)
          % 2 ^ (8 * ins.fp_format.sizeof)) with ⟨rf1, h1⟩ | h1
      · rw [h1]
        exact Or.inl ⟨_, rfl⟩
      · rw [h1]
        exact Or.inr rfl

/-- An issued micro-op never indexes outside its operand arrays. -/
theorem execute_issued_no_outOfBounds (P : FPPrimitives) {g f : RegFormat} {b : Bool}
    {addr thr : Nat} {opts : VanadisDecoderOptions} {fl : Option Nat} {fp_dest int_src : Nat}
    {pin pout : List Nat} {ins : VanadisGPR2FPInstruction}
    (h : issue g f b addr thr opts fl fp_dest int_src pin pout = some ins)
    (rf : VanadisRegisterFile) :
    faultOf (execute P ins rf) ≠ some Fault.outOfBounds := by
  obtain ⟨_, _, hb, _⟩ := issue_fields h
  cases b with
  | true =>
    rw [execute_bitwise P ins rf hb]
    by_cases hsup : (g = RegFormat.uint64_t ∧ f = RegFormat.uint64_t) ∨
        (g = RegFormat.uint32_t ∧ f = RegFormat.uint32_t)
    · rcases bitwise_convert_supported_cases h rf hsup with ⟨rf1, h1⟩ | h1
      · rw [h1]; simp [faultOf]
      · rw [h1]; simp [faultOf]
    · rw [bitwise_convert_unsupported h rf hsup]
      simp [faultOf]
  | false =>
    rw [execute_numeric P ins rf hb]
    rcases convert_issued_cases P h rf with ⟨st, h1⟩ | h1
    · rw [h1]; simp [faultOf]
    · rw [h1]; simp [faultOf]

/-- An instruction issued with one destination slot does not fracture. -/
theorem not_fractures_of_single {g f : RegFormat} {b : Bool} {addr thr : Nat}
    {opts : VanadisDecoderOptions} {fl : Option Nat} {fp_dest int_src : Nat} {pin : List Nat}
    {r0 : Nat} {ins : VanadisGPR2FPInstruction}
    (h : issue g f b addr thr opts fl fp_dest int_src pin [r0] = some ins) :
    ¬ Fractures f opts ∧ ¬ Fractures ins.fp_format ins.isa_options := by
  obtain ⟨_, hf, _, ho, _, _, _, _, _, _, _, hlen⟩ := issue_fields h
  have : ¬ Fractures f opts := by
    intro hF
    rw [if_pos hF] at hlen
    simp at hlen
  rw [hf, ho]
  exact ⟨this, this⟩

/-- An instruction issued with two destination slots fractures. -/
theorem fractures_of_pair {g f : RegFormat} {b : Bool} {addr thr : Nat}
    {opts : VanadisDecoderOptions} {fl : Option Nat} {fp_dest int_src : Nat} {pin : List Nat}
    {r0 r1 : Nat} {ins : VanadisGPR2FPInstruction}
    (h : issue g f b addr thr opts fl fp_dest int_src pin [r0, r1] = some ins) :
    Fractures f opts ∧ Fractures ins.fp_format ins.isa_options := by
  obtain ⟨_, hf, _, ho, _, _, _, _, _, _, _, hlen⟩ := issue_fields h
  have : Fractures f opts := by
    by_contra hF
    rw [if_neg hF] at hlen
    simp at hlen
  rw [hf, ho]
  exact ⟨this, this⟩

/-- C3: in bitwise mode the conversion micro-op reinterprets the source bit pattern
without value conversion, and the instruction is marked executed: for every register
file whose register width agrees with the FP register mode of the ISA options and every
source value `v` in the integer source register, the destination read back at the width
of `fp_format` holds exactly the bits of `v`. With `gpr_format = fp_format = uint64_t`
and a non-fractured destination the register `phys_fp_regs_out[0]` holds `v` for every
64-bit `v`; with a fractured destination the pair of destination registers merges back
to `v`. With `gpr_format = fp_format = uint32_t` the low 32 bits of
`phys_fp_regs_out[0]` equal `v` for every 32-bit `v`, for register width 4 and for
width 8. -/
theorem bitwise_reinterprets_source (P : FPPrimitives) (addr thr : Nat)
    (opts : VanadisDecoderOptions) (fl : Option Nat) (fp_dest int_src p r0 r1 : Nat)
    (rf : VanadisRegisterFile) (hagree : agreesWith rf opts) :
    (∀ ins, issue .uint64_t .uint64_t true addr thr opts fl fp_dest int_src [p] [r0] = some ins →
      ∃ rf1 ins1, execute P ins rf = .ok (rf1, ins1) ∧ ins1.hasExecuted = true ∧
        rf1.fp_reg_storage r0 = rf.getIntReg 8 p ∧ rf1.getFPReg 8 r0 = rf.getIntReg 8 p ∧
        (∀ r, r ≠ r0 → rf1.fp_reg_storage r = rf.fp_reg_storage r)) ∧
    (∀ ins,
      issue .uint64_t .uint64_t true addr thr opts fl fp_dest int_src [p] [r0, r1] = some ins →
      r0 ≠ r1 →
        ∃ rf1 ins1, execute P ins rf = .ok (rf1, ins1) ∧ ins1.hasExecuted = true ∧
          combineFromRegisters rf1 r0 r1 = rf.getIntReg 8 p) ∧
    (∀ ins, issue .uint32_t .uint32_t true addr thr opts fl fp_dest int_src [p] [r0] = some ins →
      ∃ rf1 ins1, execute P ins rf = .ok (rf1, ins1) ∧ ins1.hasExecuted = true ∧
        rf1.fp_reg_storage r0 % 2 ^ 32 = rf.getIntReg 4 p ∧
        rf1.getFPReg 4 r0 = rf.getIntReg 4 p) ∧
    (∀ (rf2 : VanadisRegisterFile) ins,
      issue .uint32_t .uint32_t true addr thr opts fl fp_dest int_src [p] [r0] = some ins →
      (rf2.fp_reg_width = 4 ∨ rf2.fp_reg_width = 8) →
        ∃ rf1 ins1, execute P ins rf2 = .ok (rf1, ins1) ∧ ins1.hasExecuted = true ∧
          rf1.fp_reg_storage r0 % 2 ^ 32 = rf2.getIntReg 4 p ∧
          rf1.getFPReg 4 r0 = rf2.getIntReg 4 p) := by
  have hv8 := getIntReg_lt rf 8 p
  norm_num at hv8
  have hwidth : rf.fp_reg_width = 4 ∨ rf.fp_reg_width = 8 := by
    unfold agreesWith at hagree
    split at hagree
    · exact Or.inl hagree
    · exact Or.inr hagree
  have h32 : ∀ (rf2 : VanadisRegisterFile) ins,
      issue .uint32_t .uint32_t true addr thr opts fl fp_dest int_src [p] [r0] = some ins →
      (rf2.fp_reg_width = 4 ∨ rf2.fp_reg_width = 8) →
        ∃ rf1 ins1, execute P ins rf2 = .ok (rf1, ins1) ∧ ins1.hasExecuted = true ∧
          rf1.fp_reg_storage r0 % 2 ^ 32 = rf2.getIntReg 4 p ∧
          rf1.getFPReg 4 r0 = rf2.getIntReg 4 p := by
    intro rf2 ins h hw
    have hv4 := getIntReg_lt rf2 4 p
    norm_num at hv4
    obtain ⟨hg, hf, hb, _, hin, hout, _⟩ := issue_fields h
    have hF := (not_fractures_of_single h).2
    have he := execute_bitwise P ins rf2 hb
    have h64 : ¬ (ins.fp_format = RegFormat.uint64_t ∧ ins.gpr_format = RegFormat.uint64_t) := by
      rw [hf]
      simp
    rw [bitwise_convert_single ins rf2 p r0 hin hout hF, if_neg h64, if_pos ⟨hf, hg⟩] at he
    rcases hw with hw | hw
    · obtain ⟨rf1, h1, h2, _⟩ := setFPReg_ok rf2 4 r0 (rf2.getIntReg 4 p % 2 ^ 32) (by omega)
      rw [if_neg (by omega), h1] at he
      have h3 : rf1.fp_reg_storage r0 = rf2.getIntReg 4 p := by
        rw [h2]
        norm_num
        exact hv4
      refine ⟨rf1, ins.markExecuted, he, rfl, ?_, ?_⟩
      · rw [h3]
        exact Nat.mod_eq_of_lt hv4
      · unfold VanadisRegisterFile.getFPReg
        rw [h3]
        exact Nat.mod_eq_of_lt (by norm_num; exact hv4)
    · obtain ⟨rf1, h1, h2, _⟩ :=
        setFPReg_ok rf2 8 r0 (0xffffffff00000000 ||| rf2.getIntReg 4 p) (by omega)
      rw [if_pos hw.symm, h1] at he
      have h3 : rf1.fp_reg_storage r0 % 2 ^ 32 = rf2.getIntReg 4 p := by
        rw [h2, fill_or_eq_add _ hv4]
        omega
      refine ⟨rf1, ins.markExecuted, he, rfl, h3, ?_⟩
      unfold VanadisRegisterFile.getFPReg
      exact h3
  refine ⟨?_, ?_, fun ins h => h32 rf ins h hwidth, h32⟩
  · intro ins h
    obtain ⟨hg, hf, hb, _, hin, hout, _⟩ := issue_fields h
    have hF0 := (not_fractures_of_single h).1
    have hF := (not_fractures_of_single h).2
    have hw : rf.fp_reg_width = 8 := by
      unfold agreesWith at hagree
      rw [hagree, if_neg]
      intro hm
      exact hF0 ⟨rfl, hm⟩
    have he := execute_bitwise P ins rf hb
    rw [bitwise_convert_single ins rf p r0 hin hout hF, if_pos ⟨hf, hg⟩] at he
    obtain ⟨rf1, h1, h2, h4, _⟩ := setFPReg_ok rf 8 r0 (rf.getIntReg 8 p) (by omega)
    rw [if_pos hw.symm, h1] at he
    have h3 : rf1.fp_reg_storage r0 = rf.getIntReg 8 p := by
      rw [h2]
      exact Nat.mod_eq_of_lt (by norm_num; exact hv8)
    refine ⟨rf1, ins.markExecuted, he, rfl, h3, ?_, h4⟩
    unfold VanadisRegisterFile.getFPReg
    rw [h3]
    exact Nat.mod_eq_of_lt (by norm_num; exact hv8)
  · intro ins h hne
    obtain ⟨hg, hf, hb, _, hin, hout, _⟩ := issue_fields h
    have hF0 := (fractures_of_pair h).1
    have hF := (fractures_of_pair h).2
    have hw : rf.fp_reg_width = 4 := by
      unfold agreesWith at hagree
      rw [hagree, if_pos hF0.2]
    have he := execute_bitwise P ins rf hb
    rw [bitwise_convert_pair ins rf p r0 r1 hin hout hF, if_pos ⟨hf, hg⟩] at he
    obtain ⟨rf1, h1, h2, h3, _⟩ := fractureToRegisters_ok rf r0 r1 (rf.getIntReg 8 p) hw
    rw [h1] at he
    refine ⟨rf1, ins.markExecuted, he, rfl, ?_⟩
    unfold combineFromRegisters VanadisRegisterFile.getFPReg
    rw [h2, h3 hne]
    omega

/-- C4: when a 4-byte result is written into an 8-byte-wide floating-point register
(`sizeof(fp_format) = 4`, `getFPRegWidth() = 8`, hence no fracture), the upper 32 bits
of the 64-bit value stored in the destination register are `0xFFFFFFFF`, for every
source value, in bitwise and in numeric mode; numeric mode always performs this write.
In bitwise mode with `gpr_format = fp_format = uint32_t` the stored value is exactly
`0xFFFFFFFF00000000 | v`; when the register width is 4 instead, exactly the 32-bit
value `v` is stored and no fill is applied. -/
theorem narrow_result_upper_half_filled (P : FPPrimitives) (g f : RegFormat) (b : Bool)
    (addr thr : Nat) (opts : VanadisDecoderOptions) (fl : Option Nat)
    (fp_dest int_src p r0 : Nat) (rf : VanadisRegisterFile) (ins : VanadisGPR2FPInstruction)
    (h : issue g f b addr thr opts fl fp_dest int_src [p] [r0] = some ins)
    (hsz : f.sizeof = 4) :
    (rf.fp_reg_width = 8 →
      (∀ rf1 ins1, execute P ins rf = .ok (rf1, ins1) →
        rf1.fp_reg_storage r0 / 2 ^ 32 = 0xFFFFFFFF ∧ rf1.fp_reg_storage r0 < 2 ^ 64) ∧
      (b = false →
        ∃ rf1 ins1, execute P ins rf = .ok (rf1, ins1) ∧
          rf1.fp_reg_storage r0 =
            0xffffffff00000000 |||
              (P.convertTo_uint64 f (P.static_cast g f (rf.getIntReg g.sizeof p) % 2 ^ 32)
                % 2 ^ 64)) ∧
      (b = true → g = RegFormat.uint32_t → f = RegFormat.uint32_t →
        ∃ rf1 ins1, execute P ins rf = .ok (rf1, ins1) ∧
          rf1.fp_reg_storage r0 = 0xFFFFFFFF00000000 ||| rf.getIntReg 4 p)) ∧
    (rf.fp_reg_width = 4 → b = true → g = RegFormat.uint32_t → f = RegFormat.uint32_t →
      ∃ rf1 ins1, execute P ins rf = .ok (rf1, ins1) ∧
        rf1.fp_reg_storage r0 = rf.getIntReg 4 p ∧ rf1.fp_reg_storage r0 < 2 ^ 32) := by
  obtain ⟨hg, hf, hb, ho, hin, hout, hisa, _⟩ := issue_fields h
  have hF := (not_fractures_of_single h).2
  have hv4 := getIntReg_lt rf 4 p
  norm_num at hv4
  have hsz2 : ins.fp_format.sizeof = 4 := by rw [hf]; exact hsz
  have hn64 : ¬ (ins.fp_format = RegFormat.uint64_t ∧ ins.gpr_format = RegFormat.uint64_t) := by
    intro hc
    rw [hc.1] at hsz2
    exact absurd hsz2 (by decide)
  have hnum : rf.fp_reg_width = 8 → ins.is_bitwise = false →
      ∃ rf1 ins1, execute P ins rf = .ok (rf1, ins1) ∧
        rf1.fp_reg_storage r0 =
          0xffffffff00000000 |||
            (P.convertTo_uint64 f (P.static_cast g f (rf.getIntReg g.sizeof p) % 2 ^ 32)
              % 2 ^ 64) := by
    intro hw hb0
    obtain ⟨rf1, h1, h2⟩ :=
      execute_numeric_single_ok P ins rf p r0 int_src hb0 hin hout hisa hF (by omega)
    rw [if_pos ⟨hw.symm, hsz2.symm⟩, hsz2, hf, hg] at h2
    exact ⟨rf1, _, h1, h2⟩
  have hbit : 4 ≤ rf.fp_reg_width → ins.is_bitwise = true →
      ins.fp_format = RegFormat.uint32_t ∧ ins.gpr_format = RegFormat.uint32_t →
      ∃ rf1 ins1, execute P ins rf = .ok (rf1, ins1) ∧
        rf1.fp_reg_storage r0 =
          (if 8 = rf.fp_reg_width then 0xffffffff00000000 ||| rf.getIntReg 4 p
           else rf.getIntReg 4 p) := by
    intro hw hb1 h32
    obtain ⟨rf1, h1, _, h2⟩ :=
      execute_bitwise_single_ok P ins rf p r0 hb1 hin hout hF (Or.inr h32) hw
    rw [if_neg hn64] at h2
    exact ⟨rf1, _, h1, h2⟩
  refine ⟨fun hw => ⟨?_, ?_, ?_⟩, ?_⟩
  · intro rf1 ins1 hex
    cases hb1 : ins.is_bitwise with
    | false =>
      obtain ⟨rf2, ins2, h1, h2⟩ := hnum hw hb1
      rw [h1] at hex
      cases hex
      rw [h2]
      exact ⟨fill_or_upper _ (Nat.mod_lt _ (Nat.two_pow_pos _)),
        fill_or_lt _ (Nat.mod_lt _ (Nat.two_pow_pos _))⟩
    | true =>
      have hsup := ((execute_single_inv P hin hout hisa hF hex).2.2.1 hb1).2
      have h32 : ins.fp_format = RegFormat.uint32_t ∧ ins.gpr_format = RegFormat.uint32_t := by
        rcases hsup with hc | hc
        · exact absurd hc hn64
        · exact hc
      obtain ⟨rf2, ins2, h1, h2⟩ := hbit (by omega) hb1 h32
      rw [h1] at hex
      cases hex
      rw [h2, if_pos hw.symm]
      exact ⟨fill_or_upper _ (lt_trans hv4 (by norm_num)),
        fill_or_lt _ (lt_trans hv4 (by norm_num))⟩
  · intro hb0
    exact hnum hw (by rw [hb, hb0])
  · intro hb1 hg32 hf32
    obtain ⟨rf1, ins1, h1, h2⟩ :=
      hbit (by omega) (by rw [hb, hb1]) ⟨by rw [hf, hf32], by rw [hg, hg32]⟩
    rw [if_pos hw.symm] at h2
    exact ⟨rf1, ins1, h1, h2⟩
  · intro hw hb1 hg32 hf32
    obtain ⟨rf1, ins1, h1, h2⟩ :=
      hbit (by omega) (by rw [hb, hb1]) ⟨by rw [hf, hf32], by rw [hg, hg32]⟩
    rw [if_neg (by omega)] at h2
    exact ⟨rf1, ins1, h1, h2, by rw [h2]; exact hv4⟩

/-- C5 (amended): `bitwise_convert` stops at the contract-violation assertion, before
any floating-point register is written, exactly when the pair `(gpr_format, fp_format)`
is neither `(uint64_t, uint64_t)` nor `(uint32_t, uint32_t)`. Every pair of different
widths is among those, and so is every other pair of equal width. For the two
supported pairs it completes and writes the destination register or registers, and
nothing else, whenever the register file can take the write. -/
theorem bitwise_convert_asserts_outside_supported_pairs (P : FPPrimitives) (g f : RegFormat)
    (addr thr : Nat) (opts : VanadisDecoderOptions) (fl : Option Nat) (fp_dest int_src : Nat)
    (pin pout : List Nat) (rf : VanadisRegisterFile) (ins : VanadisGPR2FPInstruction)
    (h : issue g f true addr thr opts fl fp_dest int_src pin pout = some ins) :
    (bitwise_convert ins rf = .error Fault.contractViolation ↔
      ¬ ((g = RegFormat.uint64_t ∧ f = RegFormat.uint64_t) ∨
        (g = RegFormat.uint32_t ∧ f = RegFormat.uint32_t))) ∧
    (g.sizeof ≠ f.sizeof →
      bitwise_convert ins rf = .error Fault.contractViolation ∧
      execute P ins rf = .error Fault.contractViolation) ∧
    (((g = RegFormat.uint64_t ∧ f = RegFormat.uint64_t) ∨
        (g = RegFormat.uint32_t ∧ f = RegFormat.uint32_t)) →
      (if Fractures f opts then rf.fp_reg_width = 4
        else rf.fp_reg_width = 4 ∨ rf.fp_reg_width = 8) →
      ∃ rf1, bitwise_convert ins rf = .ok rf1 ∧
        (∀ r, r ∉ pout → rf1.fp_reg_storage r = rf.fp_reg_storage r) ∧
        (∀ p r0, pin = [p] → pout = [r0] →
          rf1.getFPReg 4 r0 = rf.getIntReg g.sizeof p % 2 ^ 32) ∧
        (∀ p r0 r1, pin = [p] → pout = [r0, r1] →
          rf1.fp_reg_storage r1 = rf.getIntReg 8 p / 2 ^ 32 % 2 ^ 32 ∧
          (r0 ≠ r1 → rf1.fp_reg_storage r0 = rf.getIntReg 8 p % 2 ^ 32))) := by
  obtain ⟨hg, hf, hb, ho, hin, hout, hisa, _⟩ := issue_fields h
  obtain ⟨⟨p, hp⟩, hs2, hs1⟩ := issue_shape h
  refine ⟨⟨?_, fun hn => bitwise_convert_unsupported h rf hn⟩, ?_, ?_⟩
  · intro he hsup
    rcases bitwise_convert_supported_cases h rf hsup with ⟨rf1, h1⟩ | h1
    · rw [h1] at he
      cases he
    · rw [h1] at he
      cases he
  · intro hne
    have hn : ¬ ((g = RegFormat.uint64_t ∧ f = RegFormat.uint64_t) ∨
        (g = RegFormat.uint32_t ∧ f = RegFormat.uint32_t)) := by
      rintro (⟨h1, h2⟩ | ⟨h1, h2⟩) <;> exact hne (by rw [h1, h2])
    have hbc := bitwise_convert_unsupported h rf hn
    refine ⟨hbc, ?_⟩
    rw [execute_bitwise P ins rf hb, hbc]
  · intro hsup hfile
    by_cases hF : Fractures f opts
    · rw [if_pos hF] at hfile
      obtain ⟨r0, r1, hr⟩ := hs2 hF
      have hF2 : Fractures ins.fp_format ins.isa_options := by rw [hf, ho]; exact hF
      have h64 : ins.fp_format = RegFormat.uint64_t ∧ ins.gpr_format = RegFormat.uint64_t := by
        rw [hf, hg]
        rcases hsup with hc | hc
        · exact ⟨hc.2, hc.1⟩
        · have := hF.1
          rw [hc.2] at this
          exact absurd this (by decide)
      have hin2 : ins.phys_int_regs_in = [p] := by rw [hin, hp]
      have hout2 : ins.phys_fp_regs_out = [r0, r1] := by rw [hout, hr]
      obtain ⟨rf1, h1, h2⟩ := execute_bitwise_pair_ok P ins rf p r0 r1 hb hin2 hout2 hF2 h64 hfile
      obtain ⟨_, h4, h5, _⟩ := execute_pair_inv P hin2 hout2 hisa hF2 h1
      obtain ⟨_, _, h6, h7⟩ := h5 hb
      refine ⟨rf1, h2, ?_, ?_, ?_⟩
      · intro r hr2
        rw [hr] at hr2
        simp only [List.mem_cons, List.mem_singleton, not_or, List.not_mem_nil, or_false] at hr2
        exact h4 r hr2.1 hr2.2
      · intro p2 r2 _ hc
        rw [hr] at hc
        simp at hc
      · intro p2 r2 r3 hp2 hc
        rw [hp] at hp2
        rw [hr] at hc
        simp only [List.cons.injEq, and_true] at hp2 hc
        obtain ⟨rfl, rfl⟩ := hc
        subst hp2
        exact ⟨h6, h7⟩
    · rw [if_neg hF] at hfile
      obtain ⟨r0, hr⟩ := hs1 hF
      have hF2 : ¬ Fractures ins.fp_format ins.isa_options := by rw [hf, ho]; exact hF
      have hsup2 : (ins.fp_format = RegFormat.uint64_t ∧ ins.gpr_format = RegFormat.uint64_t) ∨
          (ins.fp_format = RegFormat.uint32_t ∧ ins.gpr_format = RegFormat.uint32_t) := by
        rw [hf, hg]
        rcases hsup with hc | hc
        · exact Or.inl ⟨hc.2, hc.1⟩
        · exact Or.inr ⟨hc.2, hc.1⟩
      have hin2 : ins.phys_int_regs_in = [p] := by rw [hin, hp]
      have hout2 : ins.phys_fp_regs_out = [r0] := by rw [hout, hr]
      have hv8 := getIntReg_lt rf 8 p
      have hv4 := getIntReg_lt rf 4 p
      norm_num at hv8 hv4
      obtain ⟨rf1, h1, h2, h3⟩ :=
        execute_bitwise_single_ok P ins rf p r0 hb hin2 hout2 hF2 hsup2 (by omega)
      obtain ⟨h4, _⟩ := execute_single_inv P hin2 hout2 hisa hF2 h1
      refine ⟨rf1, h2, ?_, ?_, ?_⟩
      · intro r hr2
        rw [hr] at hr2
        simp only [List.mem_singleton] at hr2
        exact h4 r hr2
      · intro p2 r2 hp2 hc
        rw [hp] at hp2
        rw [hr] at hc
        simp only [List.cons.injEq, and_true] at hp2 hc
        subst hc
        subst hp2
        unfold VanadisRegisterFile.getFPReg
        rw [h3]
        rcases hsup with hc | hc
        · rw [if_pos (by rw [hf, hg]; exact ⟨hc.2, hc.1⟩), hc.1]
          by_cases h8 : 8 = rf.fp_reg_width
          · rw [if_pos h8]
            rfl
          · rw [if_neg h8]
            simp [RegFormat.sizeof]
        · rw [if_neg (by rw [hf, hc.2]; simp), hc.1]
          by_cases h8 : 8 = rf.fp_reg_width
          · rw [if_pos h8, fill_or_eq_add _ hv4]
            simp only [RegFormat.sizeof]
            omega
          · rw [if_neg h8]
            simp only [RegFormat.sizeof]
      · intro p2 r2 r3 _ hc
        rw [hr] at hc
        simp at hc

/-- The register file a numeric conversion leaves does not depend on the ISA index of
its source register. -/
theorem numeric_write_independent_of_isa_source (P : FPPrimitives) {g f : RegFormat}
    {addr thr : Nat} {opts : VanadisDecoderOptions} {fl : Option Nat}
    {fp_dest int_src int_src2 : Nat} {pin pout : List Nat}
    {ins ins2 ins1 : VanadisGPR2FPInstruction} {rf rf1 : VanadisRegisterFile}
    (h : issue g f false addr thr opts fl fp_dest int_src pin pout = some ins)
    (h2 : issue g f false addr thr opts fl fp_dest int_src2 pin pout = some ins2)
    (hex : execute P ins rf = .ok (rf1, ins1)) :
    ∃ ins3, execute P ins2 rf = .ok (rf1, ins3) := by
  obtain ⟨hg, hf, hb, ho, hin, hout, hisa, _⟩ := issue_fields h
  obtain ⟨hg2, hf2, hb2, ho2, hin2, hout2, hisa2, _⟩ := issue_fields h2
  obtain ⟨⟨p, hp⟩, hs2, hs1⟩ := issue_shape h
  by_cases hF : Fractures f opts
  · obtain ⟨r0, r1, hr⟩ := hs2 hF
    rw [execute_numeric P ins rf hb,
      convert_pair P ins rf p r0 r1 int_src (by rw [hin, hp]) (by rw [hout, hr]) hisa
        (by rw [hf, ho]; exact hF), hg, hf] at hex
    rw [execute_numeric P ins2 rf hb2,
      convert_pair P ins2 rf p r0 r1 int_src2 (by rw [hin2, hp]) (by rw [hout2, hr]) hisa2
        (by rw [hf2, ho2]; exact hF), hg2, hf2]
    generalize fractureToRegisters rf r0 r1 _ = res at hex
    cases res with
    | error e => cases hex
    | ok rf2 =>
      cases hex
      exact ⟨_, rfl⟩
  · obtain ⟨r0, hr⟩ := hs1 hF
    rw [execute_numeric P ins rf hb,
      convert_single P ins rf p r0 int_src (by rw [hin, hp]) (by rw [hout, hr]) hisa
        (by rw [hf, ho]; exact hF), hg, hf] at hex
    rw [execute_numeric P ins2 rf hb2,
      convert_single P ins2 rf p r0 int_src2 (by rw [hin2, hp]) (by rw [hout2, hr]) hisa2
        (by rw [hf2, ho2]; exact hF), hg2, hf2]
    generalize (if 8 = rf.fp_reg_width ∧ 4 = f.sizeof then rf.setFPReg 8 r0 _
      else rf.setFPReg f.sizeof r0 _) = res at hex
    cases res with
    | error e => cases hex
    | ok rf2 =>
      cases hex
      exact ⟨_, rfl⟩

/-- C6: in numeric mode, whenever the register file can hold the result (4-byte
registers under fracture; otherwise 8-byte registers, or 4-byte registers for a 4-byte
result), `execute` writes `static_cast<fp_format>(v)` of the integer source value `v` to the destination
(to the two halves under fracture, below the all-ones fill for a 4-byte result in an
8-byte register) and marks the instruction executed; it performs floating-point flag
evaluation, on that result, if and only if the ISA source register index differs from
the ignored-writes register. The register file written is the same whatever the ISA
source index, so with the ignored-writes register only the flag evaluation is skipped.
In bitwise mode flag evaluation is never performed. -/
theorem numeric_flag_evaluation (P : FPPrimitives) (g f : RegFormat) (addr thr : Nat)
    (opts : VanadisDecoderOptions) (fl : Option Nat) (fp_dest int_src p : Nat)
    (pout : List Nat) (rf : VanadisRegisterFile) (ins : VanadisGPR2FPInstruction)
    (h : issue g f false addr thr opts fl fp_dest int_src [p] pout = some ins)
    (hfile : if Fractures f opts then rf.fp_reg_width = 4
      else rf.fp_reg_width = 8 ∨ (rf.fp_reg_width = 4 ∧ f.sizeof = 4)) :
    ∃ rf1 ins1, execute P ins rf = .ok (rf1, ins1) ∧
      (∀ r0, pout = [r0] →
        rf1.fp_reg_storage r0 =
          (if 8 = rf.fp_reg_width ∧ 4 = f.sizeof then
            0xffffffff00000000 |||
              (P.convertTo_uint64 f
                (P.static_cast g f (rf.getIntReg g.sizeof p) % 2 ^ (8 * f.sizeof)) % 2 ^ 64)
          else P.static_cast g f (rf.getIntReg g.sizeof p) % 2 ^ (8 * f.sizeof))) ∧
      (∀ r0 r1, pout = [r0, r1] →
        rf1.fp_reg_storage r1 =
          (P.static_cast g f (rf.getIntReg g.sizeof p) % 2 ^ (8 * f.sizeof)) / 2 ^ 32 % 2 ^ 32 ∧
        (r0 ≠ r1 → rf1.fp_reg_storage r0 =
          (P.static_cast g f (rf.getIntReg g.sizeof p) % 2 ^ (8 * f.sizeof)) % 2 ^ 32)) ∧
      ins1.hasExecuted = true ∧
      (int_src ≠ opts.getRegisterIgnoreWrites →
        ins1.flag_checks = [P.static_cast g f (rf.getIntReg g.sizeof p) % 2 ^ (8 * f.sizeof)]) ∧
      (int_src = opts.getRegisterIgnoreWrites → ins1.flag_checks = []) ∧
      (ins1.flag_checks ≠ [] ↔ int_src ≠ opts.getRegisterIgnoreWrites) ∧
      (∀ int_src2 ins2,
        issue g f false addr thr opts fl fp_dest int_src2 [p] pout = some ins2 →
        ∃ ins3, execute P ins2 rf = .ok (rf1, ins3)) ∧
      (∀ insB rfB insB1,
        issue g f true addr thr opts fl fp_dest int_src [p] pout = some insB →
        execute P insB rf = .ok (rfB, insB1) → insB1.flag_checks = []) := by
  obtain ⟨hg, hf, hb, ho, hin, hout, hisa, _, _, hfc, _⟩ := issue_fields h
  obtain ⟨_, hs2, hs1⟩ := issue_shape h
  have hflags : ∀ ins1 : VanadisGPR2FPInstruction,
      ins1 = (if int_src ≠ ins.isa_options.getRegisterIgnoreWrites then
          ins.performFlagChecks
            (P.static_cast ins.gpr_format ins.fp_format (rf.getIntReg ins.gpr_format.sizeof p)
              % 2 ^ (8 * ins.fp_format.sizeof))
        else ins).markExecuted →
      ins1.hasExecuted = true ∧
      (int_src ≠ opts.getRegisterIgnoreWrites →
        ins1.flag_checks = [P.static_cast g f (rf.getIntReg g.sizeof p) % 2 ^ (8 * f.sizeof)]) ∧
      (int_src = opts.getRegisterIgnoreWrites → ins1.flag_checks = []) ∧
      (ins1.flag_checks ≠ [] ↔ int_src ≠ opts.getRegisterIgnoreWrites) := by
    intro ins1 h1
    rw [hg, hf, ho] at h1
    by_cases hi : int_src = opts.getRegisterIgnoreWrites
    · rw [if_neg (by simpa using hi)] at h1
      subst h1
      refine ⟨rfl, fun hc => absurd hi hc, fun _ => hfc, ?_⟩
      constructor
      · intro hc
        exact absurd hfc hc
      · intro hc
        exact absurd hi hc
    · rw [if_pos hi] at h1
      subst h1
      have hl : (ins.performFlagChecks
          (P.static_cast g f (rf.getIntReg g.sizeof p) % 2 ^ (8 * f.sizeof))).markExecuted.flag_checks
          = [P.static_cast g f (rf.getIntReg g.sizeof p) % 2 ^ (8 * f.sizeof)] := by
        show ins.flag_checks ++ _ = _
        rw [hfc]
        rfl
      refine ⟨rfl, fun _ => hl, fun hc => absurd hc hi, ?_⟩
      constructor
      · intro _
        exact hi
      · intro _
        rw [hl]
        simp
  have hbit : ∀ insB rfB insB1,
      issue g f true addr thr opts fl fp_dest int_src [p] pout = some insB →
      execute P insB rf = .ok (rfB, insB1) → insB1.flag_checks = [] := by
    intro insB rfB insB1 hB hexB
    obtain ⟨_, hfB, hbB, hoB, hinB, houtB, hisaB, _, _, hfcB, _⟩ := issue_fields hB
    obtain ⟨_, hsB2, hsB1⟩ := issue_shape hB
    by_cases hF : Fractures f opts
    · obtain ⟨r0, r1, hr⟩ := hsB2 hF
      obtain ⟨_, _, h3, _⟩ := execute_pair_inv P hinB (by rw [houtB, hr]) hisaB
        (by rw [hfB, hoB]; exact hF) hexB
      rw [(h3 hbB).1]
      exact hfcB
    · obtain ⟨r0, hr⟩ := hsB1 hF
      obtain ⟨_, _, h3, _⟩ := execute_single_inv P hinB (by rw [houtB, hr]) hisaB
        (by rw [hfB, hoB]; exact hF) hexB
      rw [(h3 hbB).1]
      exact hfcB
  by_cases hF : Fractures f opts
  · rw [if_pos hF] at hfile
    obtain ⟨r0, r1, hr⟩ := hs2 hF
    have hF2 : Fractures ins.fp_format ins.isa_options := by rw [hf, ho]; exact hF
    have hout2 : ins.phys_fp_regs_out = [r0, r1] := by rw [hout, hr]
    obtain ⟨rf1, h1⟩ := execute_numeric_pair_ok P ins rf p r0 r1 int_src hb hin hout2 hisa hF2 hfile
    obtain ⟨_, _, _, h5⟩ := execute_pair_inv P hin hout2 hisa hF2 h1
    obtain ⟨_, h6, h7⟩ := h5 hb
    rw [hg, hf] at h6 h7
    obtain ⟨e1, e2, e3, e4⟩ := hflags _ rfl
    refine ⟨rf1, _, h1, ?_, ?_, e1, e2, e3, e4, ?_, hbit⟩
    · intro r2 hc
      rw [hr] at hc
      simp at hc
    · intro r2 r3 hc
      rw [hr] at hc
      simp only [List.cons.injEq, and_true] at hc
      obtain ⟨rfl, rfl⟩ := hc
      exact ⟨h6, h7⟩
    · intro int_src2 ins2 h2
      exact numeric_write_independent_of_isa_source P h h2 h1
  · rw [if_neg hF] at hfile
    obtain ⟨r0, hr⟩ := hs1 hF
    have hF2 : ¬ Fractures ins.fp_format ins.isa_options := by rw [hf, ho]; exact hF
    have hout2 : ins.phys_fp_regs_out = [r0] := by rw [hout, hr]
    have hfit : ins.fp_format.sizeof ≤ rf.fp_reg_width := by
      rw [hf]
      rcases hfile with hc | ⟨hc, hc2⟩
      · rw [hc]
        cases f <;> simp [RegFormat.sizeof]
      · rw [hc, hc2]
    obtain ⟨rf1, h1, h2⟩ :=
      execute_numeric_single_ok P ins rf p r0 int_src hb hin hout2 hisa hF2 hfit
    rw [hg, hf] at h2
    obtain ⟨e1, e2, e3, e4⟩ := hflags _ rfl
    refine ⟨rf1, _, h1, ?_, ?_, e1, e2, e3, e4, ?_, hbit⟩
    · intro r2 hc
      rw [hr] at hc
      simp only [List.cons.injEq, and_true] at hc
      subst hc
      exact h2
    · intro r2 r3 hc
      rw [hr] at hc
      simp at hc
    · intro int_src2 ins2 h2
      exact numeric_write_independent_of_isa_source P h h2 h1

/-- C7: a conversion micro-op always reads exactly one integer source register
(`int_src`) and declares two floating-point destination registers, `fp_dest` and
`fp_dest + 1` in 16-bit arithmetic, exactly when `fp_format` is 8 bytes wide and the ISA
options report FP32 register mode; otherwise it declares the single destination
`fp_dest`. In both modes `execute` takes the fracture path, which writes the two 32-bit
halves of the result to `phys_fp_regs_out[0]` and `phys_fp_regs_out[1]`, under exactly
that condition; otherwise it writes the result to `phys_fp_regs_out[0]`, which then
holds it, and to no other register. It never indexes outside the slots the constructor
allocated, and in FP32 mode a 64-bit result is never written as one wide register. -/
theorem fracture_condition_shared (P : FPPrimitives) (g f : RegFormat) (b : Bool)
    (addr thr : Nat) (opts : VanadisDecoderOptions) (fl : Option Nat) (fp_dest int_src : Nat) :
    ∃ ins0, VanadisGPR2FPInstruction.construct g f b addr thr opts fl fp_dest int_src = .ok ins0 ∧
      (ins0.count_isa_int_reg_in = 1 ∧ ins0.count_phys_int_reg_in = 1 ∧
        ins0.isa_int_regs_in = [int_src] ∧ ins0.phys_int_regs_in.length = 1 ∧
        ins0.count_isa_int_reg_out = 0 ∧ ins0.count_phys_int_reg_out = 0 ∧
        ins0.count_isa_fp_reg_in = 0 ∧ ins0.count_phys_fp_reg_in = 0) ∧
      (Fractures f opts →
        ins0.count_isa_fp_reg_out = 2 ∧ ins0.count_phys_fp_reg_out = 2 ∧
        ins0.phys_fp_regs_out.length = 2 ∧
        ins0.isa_fp_regs_out = [fp_dest, (fp_dest + 1) % 2 ^ 16]) ∧
      (¬ Fractures f opts →
        ins0.count_isa_fp_reg_out = 1 ∧ ins0.count_phys_fp_reg_out = 1 ∧
        ins0.phys_fp_regs_out.length = 1 ∧ ins0.isa_fp_regs_out = [fp_dest]) ∧
      (∀ (pin pout : List Nat) (ins : VanadisGPR2FPInstruction) (rf : VanadisRegisterFile),
        assignPhysicalRegisters pin pout ins0 = some ins →
        faultOf (execute P ins rf) ≠ some Fault.outOfBounds ∧
        (pout.length = 2 ↔ Fractures f opts) ∧ (pout.length = 1 ↔ ¬ Fractures f opts) ∧
        (∀ rf1 ins1, execute P ins rf = .ok (rf1, ins1) →
          (∀ r, r ∉ pout → rf1.fp_reg_storage r = rf.fp_reg_storage r) ∧
          (Fractures f opts →
            rf.fp_reg_width = 4 ∧
            ∃ p r0 r1, pin = [p] ∧ pout = [r0, r1] ∧
              rf1.fp_reg_storage r1 < 2 ^ 32 ∧ (r0 ≠ r1 → rf1.fp_reg_storage r0 < 2 ^ 32) ∧
              (b = true →
                rf1.fp_reg_storage r1 = rf.getIntReg 8 p / 2 ^ 32 % 2 ^ 32 ∧
                (r0 ≠ r1 → rf1.fp_reg_storage r0 = rf.getIntReg 8 p % 2 ^ 32)) ∧
              (b = false →
                rf1.fp_reg_storage r1 =
                  (P.static_cast g f (rf.getIntReg g.sizeof p) % 2 ^ (8 * f.sizeof))
                    / 2 ^ 32 % 2 ^ 32 ∧
                (r0 ≠ r1 → rf1.fp_reg_storage r0 =
                  (P.static_cast g f (rf.getIntReg g.sizeof p) % 2 ^ (8 * f.sizeof))
                    % 2 ^ 32))) ∧
          (¬ Fractures f opts →
            ∃ p r0, pin = [p] ∧ pout = [r0] ∧
              (∀ r, r ≠ r0 → rf1.fp_reg_storage r = rf.fp_reg_storage r) ∧
              (b = true →
                (g = RegFormat.uint64_t ∧ f = RegFormat.uint64_t) ∨
                  (g = RegFormat.uint32_t ∧ f = RegFormat.uint32_t)) ∧
              (b = true → g = RegFormat.uint64_t → f = RegFormat.uint64_t →
                rf1.fp_reg_storage r0 =
                  (if rf.fp_reg_width = 8 then rf.getIntReg 8 p
                   else rf.getIntReg 8 p % 2 ^ 32)) ∧
              (b = true → g = RegFormat.uint32_t → f = RegFormat.uint32_t →
                rf1.fp_reg_storage r0 =
                  (if rf.fp_reg_width = 8 then 0xffffffff00000000 ||| rf.getIntReg 4 p
                   else rf.getIntReg 4 p)) ∧
              (b = false →
                rf1.fp_reg_storage r0 =
                  (if rf.fp_reg_width = 8 ∧ f.sizeof = 4 then
                    0xffffffff00000000 |||
                      (P.convertTo_uint64 f
                        (P.static_cast g f (rf.getIntReg g.sizeof p) % 2 ^ (8 * f.sizeof))
                        % 2 ^ 64)
                  else P.static_cast g f (rf.getIntReg g.sizeof p) % 2 ^ (8 * f.sizeof))))) ∧
        ((if Fractures f opts then rf.fp_reg_width = 4
            else rf.fp_reg_width = 8 ∨ (rf.fp_reg_width = 4 ∧ (f.sizeof = 4 ∨ b = true))) →
          (b = false ∨ (g = RegFormat.uint64_t ∧ f = RegFormat.uint64_t) ∨
            (g = RegFormat.uint32_t ∧ f = RegFormat.uint32_t)) →
          ∃ rf1 ins1, execute P ins rf = .ok (rf1, ins1))) := by
  refine ⟨_, construct_ok g f b addr thr opts fl fp_dest int_src, ?_, ?_, ?_, ?_⟩
  · exact ⟨rfl, rfl, rfl, rfl, rfl, rfl, rfl, rfl⟩
  · intro hF
    simp [VanadisFloatingPointInstruction.init, hF]
  · intro hF
    simp [VanadisFloatingPointInstruction.init, hF]
  · intro pin pout ins rf hassign
    have h : issue g f b addr thr opts fl fp_dest int_src pin pout = some ins := by
      unfold issue
      rw [construct_ok]
      exact hassign
    obtain ⟨hg, hf, hb, ho, hin, hout, hisa, _, _, _, _, hlen⟩ := issue_fields h
    obtain ⟨⟨p, hp⟩, hs2, hs1⟩ := issue_shape h
    refine ⟨execute_issued_no_outOfBounds P h rf, ?_, ?_, ?_, ?_⟩
    · by_cases hF : Fractures f opts
      · rw [if_pos hF] at hlen
        exact ⟨fun _ => hF, fun _ => hlen⟩
      · rw [if_neg hF] at hlen
        exact ⟨fun hc => by omega, fun hc => absurd hc hF⟩
    · by_cases hF : Fractures f opts
      · rw [if_pos hF] at hlen
        exact ⟨fun hc => by omega, fun hc => absurd hF hc⟩
      · rw [if_neg hF] at hlen
        exact ⟨fun _ => hF, fun _ => hlen⟩
    · intro rf1 ins1 hex
      by_cases hF : Fractures f opts
      · obtain ⟨r0, r1, hr⟩ := hs2 hF
        obtain ⟨h1, h2, h3, h4⟩ := execute_pair_inv P (by rw [hin, hp]) (by rw [hout, hr]) hisa
          (by rw [hf, ho]; exact hF) hex
        rw [hb, hg, hf] at h3 h4
        refine ⟨?_, fun _ => ⟨h1, p, r0, r1, hp, hr, ?_, ?_, ?_, ?_⟩, fun hc => absurd hF hc⟩
        · intro r hr2
          rw [hr] at hr2
          simp only [List.mem_cons, List.mem_singleton, not_or, List.not_mem_nil, or_false]
            at hr2
          exact h2 r hr2.1 hr2.2
        · cases b with
          | true =>
            rw [(h3 rfl).2.2.1]
            exact Nat.mod_lt _ (Nat.two_pow_pos _)
          | false =>
            rw [(h4 rfl).2.1]
            exact Nat.mod_lt _ (Nat.two_pow_pos _)
        · intro hne
          cases b with
          | true =>
            rw [(h3 rfl).2.2.2 hne]
            exact Nat.mod_lt _ (Nat.two_pow_pos _)
          | false =>
            rw [(h4 rfl).2.2 hne]
            exact Nat.mod_lt _ (Nat.two_pow_pos _)
        · intro hb1
          exact ⟨(h3 hb1).2.2.1, (h3 hb1).2.2.2⟩
        · intro hb0
          exact ⟨(h4 hb0).2.1, (h4 hb0).2.2⟩
      · obtain ⟨r0, hr⟩ := hs1 hF
        have hin2 : ins.phys_int_regs_in = [p] := by rw [hin, hp]
        have hout2 : ins.phys_fp_regs_out = [r0] := by rw [hout, hr]
        have hF2 : ¬ Fractures ins.fp_format ins.isa_options := by rw [hf, ho]; exact hF
        obtain ⟨h1, _, h3, _⟩ := execute_single_inv P hin2 hout2 hisa hF2 hex
        obtain ⟨s1, s2, s3⟩ := execute_single_stored P hin2 hout2 hisa hF2 hex
        rw [hb, hg, hf] at h3 s1 s2 s3
        refine ⟨?_, fun hc => absurd hc hF,
          fun _ => ⟨p, r0, hp, hr, h1, ?_, ?_, ?_, s3⟩⟩
        · intro r hr2
          rw [hr] at hr2
          simp only [List.mem_singleton] at hr2
          exact h1 r hr2
        · intro hb1
          rcases (h3 hb1).2 with hc | hc
          · exact Or.inl ⟨hc.2, hc.1⟩
          · exact Or.inr ⟨hc.2, hc.1⟩
        · intro hb1 hg1 hf1
          exact s1 hb1 hf1 hg1
        · intro hb1 hg1 hf1
          exact s2 hb1 hf1 hg1
    · intro hfile hmode
      have hin2 : ins.phys_int_regs_in = [p] := by rw [hin, hp]
      by_cases hF : Fractures f opts
      · rw [if_pos hF] at hfile
        obtain ⟨r0, r1, hr⟩ := hs2 hF
        have hF2 : Fractures ins.fp_format ins.isa_options := by rw [hf, ho]; exact hF
        have hout2 : ins.phys_fp_regs_out = [r0, r1] := by rw [hout, hr]
        cases b with
        | false =>
          obtain ⟨rf1, h1⟩ :=
            execute_numeric_pair_ok P ins rf p r0 r1 int_src hb hin2 hout2 hisa hF2 hfile
          exact ⟨rf1, _, h1⟩
        | true =>
          have h64 : ins.fp_format = RegFormat.uint64_t ∧ ins.gpr_format = RegFormat.uint64_t := by
            rw [hf, hg]
            rcases hmode with hc | hc | hc
            · exact Bool.noConfusion hc
            · exact ⟨hc.2, hc.1⟩
            · have := hF.1
              rw [hc.2] at this
              exact absurd this (by decide)
          obtain ⟨rf1, h1, _⟩ :=
            execute_bitwise_pair_ok P ins rf p r0 r1 hb hin2 hout2 hF2 h64 hfile
          exact ⟨rf1, _, h1⟩
      · rw [if_neg hF] at hfile
        obtain ⟨r0, hr⟩ := hs1 hF
        have hF2 : ¬ Fractures ins.fp_format ins.isa_options := by rw [hf, ho]; exact hF
        have hout2 : ins.phys_fp_regs_out = [r0] := by rw [hout, hr]
        cases b with
        | false =>
          have hfit : ins.fp_format.sizeof ≤ rf.fp_reg_width := by
            rw [hf]
            rcases hfile with hc | ⟨hc, hc2 | hc2⟩
            · rw [hc]
              cases f <;> simp [RegFormat.sizeof]
            · rw [hc, hc2]
            · exact Bool.noConfusion hc2
          obtain ⟨rf1, h1, _⟩ :=
            execute_numeric_single_ok P ins rf p r0 int_src hb hin2 hout2 hisa hF2 hfit
          exact ⟨rf1, _, h1⟩
        | true =>
          have hsup : (ins.fp_format = RegFormat.uint64_t ∧ ins.gpr_format = RegFormat.uint64_t) ∨
              (ins.fp_format = RegFormat.uint32_t ∧ ins.gpr_format = RegFormat.uint32_t) := by
            rw [hf, hg]
            rcases hmode with hc | hc | hc
            · exact Bool.noConfusion hc
            · exact Or.inl ⟨hc.2, hc.1⟩
            · exact Or.inr ⟨hc.2, hc.1⟩
          have hw : 4 ≤ rf.fp_reg_width := by
            rcases hfile with hc | ⟨hc, _⟩ <;> omega
          obtain ⟨rf1, h1, _⟩ :=
            execute_bitwise_single_ok P ins rf p r0 hb hin2 hout2 hF2 hsup hw
          exact ⟨rf1, _, h1⟩

/-! ## Concrete runs -/

/-- Witness for C3: `uint64_t` formats, FP64 mode, 8-byte registers; the destination
register 3 receives the source value held in integer register 9. -/
theorem bitwise_reinterprets_source_witness :
    agreesWith wideFile optionsFP64 ∧
    storedValue (executeIssued samplePrimitives
      (issue .uint64_t .uint64_t true 0x1000 0 optionsFP64 none 2 5 [9] [3]) wideFile) 3
      = some (wideFile.getIntReg 8 9) := by
  refine ⟨by decide, ?_⟩
  cases hI : issue .uint64_t .uint64_t true 0x1000 0 optionsFP64 none 2 5 [9] [3] with
  | none => exact absurd hI (by decide)
  | some ins =>
    obtain ⟨rf1, ins1, he, _, hs, _⟩ :=
      (bitwise_reinterprets_source samplePrimitives 0x1000 0 optionsFP64 none 2 5 9 3 4
        wideFile (by decide)).1 ins hI
    show storedValue (execute samplePrimitives ins wideFile) 3 = _
    rw [he]
    exact congrArg some hs

/-- Witness for C4: `uint32_t` formats in bitwise mode, 8-byte registers; the source
`0x1234` is stored as `0xFFFFFFFF00001234`. -/
theorem narrow_result_upper_half_filled_witness :
    RegFormat.uint32_t.sizeof = 4 ∧ wideFile.fp_reg_width = 8 ∧
    storedValue (executeIssued samplePrimitives
      (issue .uint32_t .uint32_t true 0x1000 0 optionsFP64 none 2 5 [9] [3]) wideFile) 3
      = some 0xFFFFFFFF00001234 := by
  refine ⟨rfl, rfl, ?_⟩
  cases hI : issue .uint32_t .uint32_t true 0x1000 0 optionsFP64 none 2 5 [9] [3] with
  | none => exact absurd hI (by decide)
  | some ins =>
    obtain ⟨rf1, ins1, he, hs⟩ :=
      ((narrow_result_upper_half_filled samplePrimitives .uint32_t .uint32_t true 0x1000 0
        optionsFP64 none 2 5 9 3 wideFile ins hI rfl).1 rfl).2.2 rfl rfl rfl
    show storedValue (execute samplePrimitives ins wideFile) 3 = _
    rw [he]
    exact congrArg some (hs.trans (by decide))

/-- Witness for C5: source 8 bytes wide, destination 4 bytes wide; `bitwise_convert`
stops at the assertion. -/
theorem bitwise_convert_asserts_outside_supported_pairs_witness :
    RegFormat.uint64_t.sizeof ≠ RegFormat.uint32_t.sizeof ∧
    faultOf (bitwiseConvertIssued
      (issue .uint64_t .uint32_t true 0x1000 0 optionsFP64 none 2 5 [9] [3]) wideFile)
      = some Fault.contractViolation := by
  refine ⟨by decide, ?_⟩
  cases hI : issue .uint64_t .uint32_t true 0x1000 0 optionsFP64 none 2 5 [9] [3] with
  | none => exact absurd hI (by decide)
  | some ins =>
    have he := ((bitwise_convert_asserts_outside_supported_pairs samplePrimitives .uint64_t
      .uint32_t 0x1000 0 optionsFP64 none 2 5 [9] [3] wideFile ins hI).2.1 (by decide)).1
    show faultOf (bitwise_convert ins wideFile) = _
    rw [he]
    rfl

/-- C5 (as stated) fails for a pair of equal width: with `gpr_format = uint32_t` and
`fp_format = float`, both 4 bytes wide, `bitwise_convert` stops at the assertion. -/
theorem bitwise_convert_equal_width_pair_asserts :
    RegFormat.uint32_t.sizeof = RegFormat.float.sizeof ∧
    (issue .uint32_t .float true 0x1000 0 optionsFP64 none 2 5 [9] [3]).isSome = true ∧
    faultOf (bitwiseConvertIssued
      (issue .uint32_t .float true 0x1000 0 optionsFP64 none 2 5 [9] [3]) wideFile)
      = some Fault.contractViolation := by
  decide

/-- Witness for C6: a numeric conversion from ISA register 5, which is not the
ignored-writes register 0, performs flag evaluation on its result. -/
theorem numeric_flag_evaluation_witness :
    (5 : Nat) ≠ optionsFP64.getRegisterIgnoreWrites ∧
    flagChecksAfter (executeIssued samplePrimitives
      (issue .int32_t .float false 0x1000 0 optionsFP64 none 2 5 [9] [3]) wideFile)
      = some [0x1235] := by
  refine ⟨by decide, ?_⟩
  cases hI : issue .int32_t .float false 0x1000 0 optionsFP64 none 2 5 [9] [3] with
  | none => exact absurd hI (by decide)
  | some ins =>
    obtain ⟨rf1, ins1, he, _, _, _, hfc, _⟩ :=
      numeric_flag_evaluation samplePrimitives .int32_t .float 0x1000 0 optionsFP64 none 2 5 9
        [3] wideFile ins hI (by decide)
    show flagChecksAfter (execute samplePrimitives ins wideFile) = _
    rw [he]
    exact congrArg some ((hfc (by decide)).trans (by decide))

/-- Witness for C7: a `double` destination in FP32 mode declares the pair `fp_dest`,
`fp_dest + 1` (from `fp_dest = 65535` the second index wraps to 0) and a run writes the
two halves of the result `0x1235` to registers 3 and 4; in FP64 mode the same
conversion writes the result to the single destination register 3. -/
theorem fracture_condition_shared_witness :
    Fractures RegFormat.double optionsFP32 ∧ ¬ Fractures RegFormat.double optionsFP64 ∧
    (match VanadisGPR2FPInstruction.construct .int64_t .double false 0x1000 0 optionsFP32 none
        65535 5 with
      | .ok ins0 => ins0.isa_fp_regs_out
      | .error _ => []) = [65535, 0] ∧
    storedValue (executeIssued samplePrimitives
      (issue .int64_t .double false 0x1000 0 optionsFP32 none 65535 5 [9] [3, 4]) narrowFile) 3
      = some 0x1235 ∧
    storedValue (executeIssued samplePrimitives
      (issue .int64_t .double false 0x1000 0 optionsFP32 none 65535 5 [9] [3, 4]) narrowFile) 4
      = some 0 ∧
    storedValue (executeIssued samplePrimitives
      (issue .int64_t .double false 0x1000 0 optionsFP64 none 2 5 [9] [3]) wideFile) 3
      = some 0x1235 := by
  obtain ⟨ins0, hc, _, hF, _, hrun⟩ :=
    fracture_condition_shared samplePrimitives .int64_t .double false 0x1000 0 optionsFP32 none
      65535 5
  obtain ⟨ins2, hc2, _, _, _, hrun2⟩ :=
    fracture_condition_shared samplePrimitives .int64_t .double false 0x1000 0 optionsFP64 none
      2 5
  have hfr : ∃ rf1 ins1,
      executeIssued samplePrimitives
        (issue .int64_t .double false 0x1000 0 optionsFP32 none 65535 5 [9] [3, 4]) narrowFile
        = .ok (rf1, ins1) ∧
      rf1.fp_reg_storage 3 = 0x1235 ∧ rf1.fp_reg_storage 4 = 0 := by
    cases hI : issue .int64_t .double false 0x1000 0 optionsFP32 none 65535 5 [9] [3, 4] with
    | none => exact absurd hI (by decide)
    | some ins =>
      have hassign : assignPhysicalRegisters [9] [3, 4] ins0 = some ins := by
        unfold issue at hI
        rw [hc] at hI
        exact hI
      obtain ⟨_, _, _, hval, hsucc⟩ := hrun [9] [3, 4] ins narrowFile hassign
      obtain ⟨rf1, ins1, he⟩ := hsucc (by decide) (Or.inl rfl)
      obtain ⟨_, hfrac, _⟩ := hval rf1 ins1 he
      obtain ⟨_, p, r0, r1, hp, hr, _, _, _, hnum⟩ := hfrac (by decide)
      cases hp
      cases hr
      obtain ⟨h1, h0⟩ := hnum rfl
      exact ⟨rf1, ins1, he, (h0 (by decide)).trans (by decide), h1.trans (by decide)⟩
  have hsg : ∃ rf1 ins1,
      executeIssued samplePrimitives
        (issue .int64_t .double false 0x1000 0 optionsFP64 none 2 5 [9] [3]) wideFile
        = .ok (rf1, ins1) ∧
      rf1.fp_reg_storage 3 = 0x1235 := by
    cases hI : issue .int64_t .double false 0x1000 0 optionsFP64 none 2 5 [9] [3] with
    | none => exact absurd hI (by decide)
    | some ins =>
      have hassign : assignPhysicalRegisters [9] [3] ins2 = some ins := by
        unfold issue at hI
        rw [hc2] at hI
        exact hI
      obtain ⟨_, _, _, hval, hsucc⟩ := hrun2 [9] [3] ins wideFile hassign
      obtain ⟨rf1, ins1, he⟩ := hsucc (by decide) (Or.inl rfl)
      obtain ⟨_, _, hsingle⟩ := hval rf1 ins1 he
      obtain ⟨p, r0, hp, hr, _, _, _, _, hnum⟩ := hsingle (by decide)
      cases hp
      cases hr
      exact ⟨rf1, ins1, he, (hnum rfl).trans (by decide)⟩
  obtain ⟨rfa, insa, hea, ha3, ha4⟩ := hfr
  obtain ⟨rfb, insb, heb, hb3⟩ := hsg
  refine ⟨by decide, by decide, ?_, ?_, ?_, ?_⟩
  · rw [hc]
    exact (hF (by decide)).2.2.2
  · rw [hea]
    exact congrArg some ha3
  · rw [hea]
    exact congrArg some ha4
  · rw [heb]
    exact congrArg some hb3

end Vanadis
